import Mathlib

/-!
Verification development for the single-symbol trading bot in
`src/server/src/trading-bot.ts`.  The file shallowly embeds the bot's
order-guard, position-ledger, sampler and reconciliation logic:
JS `number` prices, quantities and equity become `ℚ`, order ids and
millisecond clocks become `ℤ`, the module-level mutable variables become
fields of one explicit state record, and broker side effects
(order cancellations sent via `ib.cancelOrder`) are returned as a list of
cancelled order ids.  Wall-clock formatting, file I/O, logging and the
Telegram/stop-loss/EOD paths that no claim touches are omitted; the
`Date.now()`-derived OCA group names are passed in as explicit arguments.
-/

namespace TradingBot

/-- Trading mode of a run (`--mode long|short` in the CLI). -/
inductive SideMode where
  | long
  | short
deriving DecidableEq, Repr

/-- Order side, `"BUY" | "SELL"` in the source. -/
inductive Side where
  | buy
  | sell
deriving DecidableEq, Repr

/-- Order role, `"ENTRY" | "EXIT"` in the source. -/
inductive Role where
  | entry
  | exit
deriving DecidableEq, Repr

/-- Reason tag of an order or trade record, `"RULE" | "STOP" | "EOD" | "TAKE"`. -/
inductive Reason where
  | rule
  | stop
  | eod
  | take
deriving DecidableEq, Repr

/-- `TrackedOrder` from the source: one working order in the `orders` map. -/
structure TrackedOrder where
  side : Side
  role : Role
  reason : Reason
  qty : ℚ
  cumQty : ℚ
  oca : Option String
deriving DecidableEq, Repr

/-- `TxRecord` from the source (the wall-clock `datetime`/`day` strings are
omitted; no claim mentions them). -/
structure TxRecord where
  symbol : String
  side : Side
  price : ℚ
  shares : ℚ
  profit : ℚ
  newCapital : ℚ
  tradeIndex : ℕ
  reason : Option Reason
deriving DecidableEq, Repr

/-- The slice of `BotState` (the persisted snapshot) that `loadStateIfAny`
reads back. -/
structure Snapshot where
  symbol : String
  mode : SideMode
  equity : ℚ
  entryPrice : ℚ
  shares : ℚ
  tradeCounter : ℕ
  pendingExitQty : ℚ
  currentOcaGroup : String
deriving DecidableEq, Repr

/-- The CLI configuration fields the embedded code paths read. -/
structure Config where
  symbol : String
  mode : SideMode
  capital : ℚ
  tickSize : ℚ
  x : ℕ
  y : ℕ
  multiple : ℚ
deriving DecidableEq, Repr

/-- The module-level mutable variables of `trading-bot.ts`, gathered into one
record: position ledger, order-guard state, sampler state and the
append-only transaction log. -/
structure BotSt where
  equity : ℚ
  inPosition : Bool
  entryPrice : ℚ
  shares : ℚ
  tradeCounter : ℕ
  lastPrice : ℚ
  prevSamplePrice : ℚ
  haveFirstSample : Bool
  downStreak : ℕ
  upStreak : ℕ
  nextOrderId : ℤ
  orderPending : Bool
  lastOrderTime : ℤ
  openEntryOrderId : Option ℤ
  openExitOrderIds : List ℤ
  pendingExitQty : ℚ
  currentOcaGroup : String
  orders : List (ℤ × TrackedOrder)
  txLog : List TxRecord
deriving DecidableEq, Repr

/-- One `orderStatus` callback payload from the broker session. -/
structure StatusEvent where
  orderId : ℤ
  status : String
  filled : Option ℚ
  remaining : ℚ
  avgFillPrice : ℚ
deriving DecidableEq, Repr

/-- The parameters `placeOrderSafe` receives besides the contract and the raw
order object (whose limit price the guard state does not retain). -/
structure OrderReq where
  side : Side
  role : Role
  reason : Reason
  qty : ℚ
  oca : Option String
deriving DecidableEq, Repr

/-- `orders.get`, on the association-list embedding of the `Map`. -/
def ordLookup (os : List (ℤ × TrackedOrder)) (i : ℤ) : Option TrackedOrder :=
  (os.find? (fun p => p.1 = i)).map (fun p => p.2)

/-- `orders.set`: replace the entry with key `i` if present, else append. -/
def ordInsert (os : List (ℤ × TrackedOrder)) (i : ℤ) (t : TrackedOrder) :
    List (ℤ × TrackedOrder) :=
  if (os.find? (fun p => p.1 = i)).isSome then
    os.map (fun p => if p.1 = i then (i, t) else p)
  else
    os ++ [(i, t)]

/-- `orders.delete`. -/
def ordErase (os : List (ℤ × TrackedOrder)) (i : ℤ) : List (ℤ × TrackedOrder) :=
  os.filter (fun p => p.1 ≠ i)

/-- JS `Math.max` on two rationals, written as an executable conditional. -/
def jsMax (a b : ℚ) : ℚ := if a ≤ b then b else a

/-- JS `Math.min` on two rationals, written as an executable conditional. -/
def jsMin (a b : ℚ) : ℚ := if b ≤ a then b else a

/-- JS `Math.abs` on a rational, written as an executable conditional. -/
def jsAbs (a : ℚ) : ℚ := if a < 0 then -a else a

/-- `ORDER_COOLDOWN_MS` from the source. -/
def ORDER_COOLDOWN_MS : ℤ := 300

/-- The fresh-start values of all module-level mutable variables. -/
def initState (cfg : Config) : BotSt :=
  { equity := cfg.capital
    inPosition := false
    entryPrice := 0
    shares := 0
    tradeCounter := 0
    lastPrice := 0
    prevSamplePrice := 0
    haveFirstSample := false
    downStreak := 0
    upStreak := 0
    nextOrderId := -1
    orderPending := false
    lastOrderTime := 0
    openEntryOrderId := none
    openExitOrderIds := []
    pendingExitQty := 0
    currentOcaGroup := ""
    orders := []
    txLog := [] }

/-- `hasOutstandingOrders` from the source: an entry order is working, or
some exit order is working, or a submission is pending and the 300 ms
cooldown since the last submission has not elapsed. -/
def hasOutstandingOrders (now : ℤ) (st : BotSt) : Bool :=
  if st.openEntryOrderId.isSome then true
  else if st.openExitOrderIds ≠ [] then true
  else if st.orderPending ∧ now - st.lastOrderTime < ORDER_COOLDOWN_MS then true
  else false

/-- `placeOrderSafe` from the source: throws (modelled as `Except.error`)
when `nextValidId` was never received, returns `-1` leaving all state
untouched when `hasOutstandingOrders` holds, and otherwise consumes the next
order id, records the tracked order, marks it as the working entry order or
adds it to the working exit set, and arms the cooldown. -/
def placeOrderSafe (now : ℤ) (st : BotSt) (req : OrderReq) :
    Except String (ℤ × BotSt) :=
  if st.nextOrderId < 0 then Except.error "nextValidId not received yet"
  else if hasOutstandingOrders now st then Except.ok (-1, st)
  else
    let orderId := st.nextOrderId
    Except.ok (orderId,
      { st with
        nextOrderId := st.nextOrderId + 1
        orders := ordInsert st.orders orderId
          { side := req.side, role := req.role, reason := req.reason
            qty := req.qty, cumQty := 0, oca := req.oca }
        openEntryOrderId :=
          if req.role = Role.entry then some orderId else st.openEntryOrderId
        openExitOrderIds :=
          if req.role = Role.entry then st.openExitOrderIds
          else st.openExitOrderIds ++ [orderId]
        orderPending := true
        lastOrderTime := now })

/-- `profitableSellLimit` (first variant): `Math.max(current, entry + tickSize)`. -/
def profitableSellLimit (cfg : Config) (current entry : ℚ) : ℚ :=
  jsMax current (entry + cfg.tickSize)

/-- `profitableCoverLimit` (first variant): `Math.min(current, entry - tickSize)`. -/
def profitableCoverLimit (cfg : Config) (current entry : ℚ) : ℚ :=
  jsMin current (entry - cfg.tickSize)

/-- `chooseSellLimitForLong` (second variant): reference is bid when positive,
else the fallback last/sample price, raised to at least `entry + tickSize`. -/
def chooseSellLimitForLong (cfg : Config) (bid entry fallback : ℚ) : ℚ :=
  let minProfitable := entry + cfg.tickSize
  let base := if bid > 0 then bid else fallback
  jsMax base minProfitable

/-- `chooseCoverLimitForShort` (second variant): reference is ask when
positive, else the fallback, lowered to at most `entry - tickSize`. -/
def chooseCoverLimitForShort (cfg : Config) (ask entry fallback : ℚ) : ℚ :=
  let minProfitable := entry - cfg.tickSize
  let base := if ask > 0 then ask else fallback
  jsMin base minProfitable

/-- `recordFlat` from the source: realizes `profit` into equity, appends the
closing `TxRecord`, resets the position and exit-guard state to flat, and
cancels every still-tracked exit order (returned as the effect list).  The
daily aggregate map, rederived from the log for the daily-P&L file, is
omitted along with the file writes. -/
def recordFlat (cfg : Config) (st : BotSt) (profit price : ℚ)
    (reason : Option Reason) : BotSt × List ℤ :=
  let equity1 := st.equity + profit
  let rec1 : TxRecord :=
    { symbol := cfg.symbol
      side := if cfg.mode = SideMode.long then Side.sell else Side.buy
      price := price
      shares := st.shares
      profit := profit
      newCapital := equity1
      tradeIndex := st.tradeCounter
      reason := reason }
  ({ st with
      equity := equity1
      txLog := st.txLog ++ [rec1]
      inPosition := false
      entryPrice := 0
      shares := 0
      pendingExitQty := 0
      openExitOrderIds := []
      currentOcaGroup := "" },
    st.openExitOrderIds)

/-- `ensureNoFlip` from the source: two sequential guards; if the position
sign contradicts the configured mode, force the ledger flat, cancel all
tracked exit orders and clear the OCA group. -/
def ensureNoFlip (cfg : Config) (st : BotSt) : BotSt × List ℤ :=
  let p1 :=
    if cfg.mode = SideMode.long ∧ st.shares < 0 then
      ({ st with
          shares := 0, inPosition := false, pendingExitQty := 0
          openExitOrderIds := [], currentOcaGroup := "" },
        st.openExitOrderIds)
    else (st, ([] : List ℤ))
  let st1 := p1.1
  if cfg.mode = SideMode.short ∧ st1.shares > 0 then
    ({ st1 with
        shares := 0, inPosition := false, pendingExitQty := 0
        openExitOrderIds := [], currentOcaGroup := "" },
      p1.2 ++ st1.openExitOrderIds)
  else p1

/-- `loadStateIfAny` from the source: no snapshot on disk leaves the fresh
state; a snapshot recorded for a different symbol is ignored entirely
(early `return` before any field is merged); otherwise the ledger and guard
fields are restored and `inPosition` is rederived from `shares`. -/
def loadStateIfAny (cfg : Config) (st : BotSt) (snap : Option Snapshot) : BotSt :=
  match snap with
  | none => st
  | some s =>
    if s.symbol ≠ cfg.symbol then st
    else
      { st with
        equity := s.equity
        entryPrice := s.entryPrice
        shares := s.shares
        tradeCounter := s.tradeCounter
        pendingExitQty := s.pendingExitQty
        currentOcaGroup := s.currentOcaGroup
        inPosition := s.shares ≠ 0 }

/-- The `orderStatus` event handler from the source.  `newOca` stands for the
`POS_symbol_Date.now()` string generated when an entry fill opens a new OCA
family.  A report for an untracked id is ignored; a numeric `filled` updates
the tracked cumulative fill; `"Cancelled"` releases the guard slot and
returns the unfilled remainder of an exit to `pendingExitQty` (clamped at 0);
a terminal fill (`"Filled"` or `remaining == 0`) settles: an ENTRY fill opens
the position and appends a zero-profit record, an EXIT fill realizes P&L and
either closes the trade via `recordFlat` (resulting quantity exactly zero)
or adds the realized P&L to equity without a record. -/
def handleOrderStatus (cfg : Config) (st : BotSt) (e : StatusEvent)
    (newOca : String) : BotSt × List ℤ :=
  match ordLookup st.orders e.orderId with
  | none => (st, [])
  | some meta0 =>
    let meta :=
      match e.filled with
      | some f => { meta0 with cumQty := f }
      | none => meta0
    let st := { st with orders := ordInsert st.orders e.orderId meta }
    if e.status = "Cancelled" then
      let st :=
        { st with
          openEntryOrderId :=
            if st.openEntryOrderId = some e.orderId then none
            else st.openEntryOrderId
          openExitOrderIds := st.openExitOrderIds.filter (fun i => i ≠ e.orderId)
          pendingExitQty :=
            if meta.role = Role.exit then
              jsMax 0 (st.pendingExitQty - jsMax 0 (meta.qty - meta.cumQty))
            else st.pendingExitQty
          orders := ordErase st.orders e.orderId
          orderPending := false }
      (st, [])
    else if e.status = "Filled" ∨ e.remaining = 0 then
      let st :=
        { st with
          openEntryOrderId :=
            if st.openEntryOrderId = some e.orderId then none
            else st.openEntryOrderId
          openExitOrderIds := st.openExitOrderIds.filter (fun i => i ≠ e.orderId)
          orderPending := false }
      if meta.role = Role.entry then
        let sh : ℚ := if cfg.mode = SideMode.long then meta.qty else -meta.qty
        let st :=
          { st with
            tradeCounter := st.tradeCounter + 1
            inPosition := true
            entryPrice := e.avgFillPrice
            shares := sh
            pendingExitQty := 0
            openExitOrderIds := []
            currentOcaGroup := newOca
            txLog := st.txLog ++
              [{ symbol := cfg.symbol
                 side := if cfg.mode = SideMode.long then Side.buy else Side.sell
                 price := e.avgFillPrice
                 shares := sh
                 profit := 0
                 newCapital := st.equity
                 tradeIndex := st.tradeCounter + 1
                 reason := some meta.reason }] }
        let p := ensureNoFlip cfg st
        ({ p.1 with orders := ordErase p.1.orders e.orderId }, p.2)
      else
        let exitQty := meta.qty
        let exitPrice := e.avgFillPrice
        let realized : ℚ :=
          if cfg.mode = SideMode.long then exitQty * (exitPrice - st.entryPrice)
          else exitQty * (st.entryPrice - exitPrice)
        let st :=
          { st with
            pendingExitQty := jsMax 0 (st.pendingExitQty - exitQty)
            shares :=
              if cfg.mode = SideMode.long then st.shares - exitQty
              else st.shares + exitQty }
        let p := ensureNoFlip cfg st
        if p.1.shares = 0 then
          let q := recordFlat cfg p.1 realized exitPrice (some meta.reason)
          ({ q.1 with orders := ordErase q.1.orders e.orderId }, p.2 ++ q.2)
        else
          ({ p.1 with
              equity := p.1.equity + realized
              orders := ordErase p.1.orders e.orderId }, p.2)
    else
      (st, [])

/-- The `positionEnd` reconciliation handler from the source, after the
snapshot row for the configured symbol has been resolved to
`exchangeSaysPos`/`exchangeAvgCost` (both defaulting to 0 when absent).
Branch 1 (local open, broker flat): force-flat, cancel tracked exits, append
one zero-profit audit record, and return.  Branch 2 (local flat, broker
non-flat): adopt the broker position unless its sign contradicts the mode.
Branch 3 (both open, quantities differ): resync quantity and entry price,
reset `pendingExitQty`, clear exit tracking, new OCA group. -/
def handlePositionEnd (cfg : Config) (st : BotSt)
    (exchangeSaysPos exchangeAvgCost : ℚ) (newOca : String) : BotSt × List ℤ :=
  if st.inPosition ∧ exchangeSaysPos = 0 then
    let cancels := st.openExitOrderIds
    let st :=
      { st with
        openExitOrderIds := []
        pendingExitQty := 0
        currentOcaGroup := ""
        inPosition := false
        shares := 0
        entryPrice := 0
        txLog := st.txLog ++
          [{ symbol := cfg.symbol
             side := if cfg.mode = SideMode.long then Side.sell else Side.buy
             price := st.lastPrice
             shares := 0
             profit := 0
             newCapital := st.equity
             tradeIndex := st.tradeCounter
             reason := some Reason.rule }] }
    (st, cancels)
  else
    let st1 :=
      if st.inPosition = false ∧ exchangeSaysPos ≠ 0 then
        if (cfg.mode = SideMode.long ∧ exchangeSaysPos < 0) ∨
           (cfg.mode = SideMode.short ∧ exchangeSaysPos > 0) then st
        else
          { st with
            inPosition := true
            shares := exchangeSaysPos
            entryPrice :=
              if exchangeAvgCost = 0 then st.entryPrice else exchangeAvgCost
            pendingExitQty := 0
            openEntryOrderId := none
            openExitOrderIds := []
            currentOcaGroup := newOca }
      else st
    let st2 :=
      if st1.inPosition ∧ exchangeSaysPos ≠ 0 ∧ exchangeSaysPos ≠ st1.shares then
        { st1 with
          shares := exchangeSaysPos
          entryPrice :=
            if exchangeAvgCost > 0 then exchangeAvgCost else st1.entryPrice
          pendingExitQty := 0
          openExitOrderIds := []
          currentOcaGroup := newOca }
      else st1
    (st2, [])

/-- The sampler core of the bucket-timer callback (identical in both
variants): no tick price yet skips the sample; the first sample only
initializes `prevSamplePrice`; otherwise the streak counters are updated by
comparing the new sample to the previous one and `prevSamplePrice` advances.
The returned flag is `true` exactly when control reaches the decision
evaluation (`maybeExitOnSample` / `maybeEnterOnSample`) in the source. -/
def bucketTick (st : BotSt) : BotSt × Bool :=
  if st.lastPrice ≤ 0 then (st, false)
  else
    let sample := st.lastPrice
    if st.haveFirstSample = false then
      ({ st with haveFirstSample := true, prevSamplePrice := sample }, false)
    else
      let st :=
        if sample < st.prevSamplePrice then
          { st with downStreak := st.downStreak + 1, upStreak := 0 }
        else if sample > st.prevSamplePrice then
          { st with upStreak := st.upStreak + 1, downStreak := 0 }
        else
          { st with downStreak := 0, upStreak := 0 }
      ({ st with prevSamplePrice := sample }, true)

/-- `maybeEnterOnSample` (first variant): no entry while in position or while
an order is outstanding; quantity is `floor(equity * multiple / sample)` and
a zero quantity silently yields no order; LONG enters BUY when
`downStreak == x`, SHORT enters SELL when `upStreak == y`; streaks reset
only after a successful submission. -/
def maybeEnterOnSample (cfg : Config) (now : ℤ) (st : BotSt)
    (samplePrice : ℚ) : BotSt :=
  if st.inPosition then st
  else if hasOutstandingOrders now st then st
  else
    let qty : ℚ := ((⌊st.equity * cfg.multiple / samplePrice⌋ : ℤ) : ℚ)
    if qty ≤ 0 then st
    else if cfg.mode = SideMode.long then
      if st.downStreak = cfg.x then
        match placeOrderSafe now st
          { side := Side.buy, role := Role.entry, reason := Reason.rule
            qty := qty, oca := none } with
        | Except.error _ => st
        | Except.ok (oid, st1) =>
          if oid < 0 then st1
          else { st1 with downStreak := 0, upStreak := 0 }
      else st
    else
      if st.upStreak = cfg.y then
        match placeOrderSafe now st
          { side := Side.sell, role := Role.entry, reason := Reason.rule
            qty := qty, oca := none } with
        | Except.error _ => st
        | Except.ok (oid, st1) =>
          if oid < 0 then st1
          else { st1 with downStreak := 0, upStreak := 0 }
      else st

/-- `maybeExitOnSample` (first variant): no exit unless in position and no
order is outstanding; LONG exits SELL when `upStreak == y` and the sample is
above entry, SHORT covers when `downStreak == x` and the sample is below
entry; the quantity is the uncovered remainder
`max(0, abs(shares) - pendingExitQty)` and a non-positive remainder yields no
order; a fresh OCA group is minted only when none is active; on success the
remainder is added to `pendingExitQty` and streaks reset. -/
def maybeExitOnSample (cfg : Config) (now : ℤ) (st : BotSt) (samplePrice : ℚ)
    (newOca : String) : BotSt :=
  if st.inPosition = false then st
  else if hasOutstandingOrders now st then st
  else if cfg.mode = SideMode.long then
    if ¬ (st.upStreak = cfg.y ∧ samplePrice > st.entryPrice) then st
    else
      let qtyToExit := jsMax 0 (jsAbs st.shares - st.pendingExitQty)
      if qtyToExit ≤ 0 then st
      else
        let st :=
          if st.currentOcaGroup = "" then { st with currentOcaGroup := newOca }
          else st
        match placeOrderSafe now st
          { side := Side.sell, role := Role.exit, reason := Reason.rule
            qty := qtyToExit, oca := some st.currentOcaGroup } with
        | Except.error _ => st
        | Except.ok (oid, st1) =>
          if oid < 0 then st1
          else
            { st1 with
              pendingExitQty := st1.pendingExitQty + qtyToExit
              downStreak := 0, upStreak := 0 }
  else
    if ¬ (st.downStreak = cfg.x ∧ samplePrice < st.entryPrice) then st
    else
      let qtyToExit := jsMax 0 (jsAbs st.shares - st.pendingExitQty)
      if qtyToExit ≤ 0 then st
      else
        let st :=
          if st.currentOcaGroup = "" then { st with currentOcaGroup := newOca }
          else st
        match placeOrderSafe now st
          { side := Side.buy, role := Role.exit, reason := Reason.rule
            qty := qtyToExit, oca := some st.currentOcaGroup } with
        | Except.error _ => st
        | Except.ok (oid, st1) =>
          if oid < 0 then st1
          else
            { st1 with
              pendingExitQty := st1.pendingExitQty + qtyToExit
              downStreak := 0, upStreak := 0 }

/-- The serialized event alphabet of the bot's single-threaded core:
`connected` is the `nextValidId` callback seeding the order-id counter,
`tickLast` a LAST-price tick, `bucket` a bucket-timer firing (sampler core),
`exitSample`/`enterSample` the decision evaluations on a fresh sample, and
`status`/`posEnd` the broker order-status and position-snapshot callbacks. -/
inductive Event where
  | connected (oid : ℤ)
  | tickLast (price : ℚ)
  | bucket
  | exitSample (now : ℤ) (sample : ℚ) (newOca : String)
  | enterSample (now : ℤ) (sample : ℚ)
  | status (e : StatusEvent) (newOca : String)
  | posEnd (pos avgCost : ℚ) (newOca : String)
deriving DecidableEq, Repr

/-- One serialized event-processing step of the core state machine
(broker-side cancel effects discarded). -/
def step (cfg : Config) (st : BotSt) (ev : Event) : BotSt :=
  match ev with
  | Event.connected oid => { st with nextOrderId := oid }
  | Event.tickLast p => if p ≤ 0 then st else { st with lastPrice := p }
  | Event.bucket => (bucketTick st).1
  | Event.exitSample now s oca => maybeExitOnSample cfg now st s oca
  | Event.enterSample now s => maybeEnterOnSample cfg now st s
  | Event.status e oca => (handleOrderStatus cfg st e oca).1
  | Event.posEnd pos cost oca => (handlePositionEnd cfg st pos cost oca).1

/-- Replay a finite event sequence through the core. -/
def run (cfg : Config) (st : BotSt) (evs : List Event) : BotSt :=
  evs.foldl (step cfg) st

/-- Sum of the `profit` fields over a Trade Record log. -/
def sumProfit (log : List TxRecord) : ℚ :=
  (log.map TxRecord.profit).sum

/-- The round-trip property of §8: starting capital plus the summed profit of
the Trade Record log reproduces the current equity. -/
def equityMatchesLog (cfg : Config) (st : BotSt) : Prop :=
  st.equity = cfg.capital + sumProfit st.txLog

/-- A terminal EXIT fill whose settlement leaves the position open: the
`orderStatus` branch that realizes P&L into equity without appending a Trade
Record.  The quantity test mirrors the handler exactly, including the
`ensureNoFlip` clamp between the share decrement and the flat test. -/
def exitFillLeavesOpen (cfg : Config) (st : BotSt) (e : StatusEvent) : Bool :=
  match ordLookup st.orders e.orderId with
  | none => false
  | some meta =>
    if e.status = "Cancelled" then false
    else if e.status = "Filled" ∨ e.remaining = 0 then
      if meta.role = Role.exit then
        let s1 : ℚ :=
          if cfg.mode = SideMode.long then st.shares - meta.qty
          else st.shares + meta.qty
        let s2 : ℚ :=
          if (cfg.mode = SideMode.long ∧ s1 < 0) ∨
             (cfg.mode = SideMode.short ∧ s1 > 0) then 0
          else s1
        decide (s2 ≠ 0)
      else false
    else false

/-- An event whose processing realizes P&L without a Trade Record. -/
def unrecordedRealization (cfg : Config) (st : BotSt) (ev : Event) : Bool :=
  match ev with
  | Event.status e _ => exitFillLeavesOpen cfg st e
  | _ => false

/-- A run none of whose settlements realize P&L without a Trade Record. -/
def recordedRun (cfg : Config) : BotSt → List Event → Bool
  | _, [] => true
  | st, ev :: evs =>
    !unrecordedRealization cfg st ev && recordedRun cfg (step cfg st ev) evs

/-- A long-mode configuration used for the concrete scenarios below
(`--symbol NVDA --capital 1000 --mode long --x 2 --y 1 --tickSize 0.01`). -/
def cfgL : Config :=
  { symbol := "NVDA", mode := SideMode.long, capital := 1000,
    tickSize := 1/100, x := 2, y := 1, multiple := 1 }

/-- An entry request for three shares, as `maybeEnterOnSample` would build it. -/
def entryReq3 : OrderReq :=
  { side := Side.buy, role := Role.entry, reason := Reason.rule
    qty := 3, oca := none }

/-- Freshly connected state: `nextValidId` delivered the starting id 5. -/
def connectedSt : BotSt := { initState cfgL with nextOrderId := 5 }

/-- State right after submitting `entryReq3` at time 0. -/
def afterSubmitSt : BotSt :=
  ((placeOrderSafe 0 connectedSt entryReq3).toOption.map Prod.snd).getD connectedSt

/-- State after the broker cancels order 5: `orderPending` is false again but
only 100 ms have passed since the submission. -/
def afterCancelSt : BotSt :=
  (handleOrderStatus cfgL afterSubmitSt
    { orderId := 5, status := "Cancelled", filled := some 0
      remaining := 3, avgFillPrice := 0 } "X").1

/-- Terminal fill report for exit order 1: all 10 shares at 102. -/
def fillEv1 : StatusEvent :=
  { orderId := 1, status := "Filled", filled := some 10
    remaining := 0, avgFillPrice := 102 }

/-- A run in which an exchange-side position increase makes the tracked exit
order cover only part of the position, so its fill realizes P&L with no
Trade Record appended. -/
def leavesOpenEvs : List Event :=
  [ Event.connected 1,
    Event.posEnd 10 100 "A",
    Event.tickLast 105,
    Event.bucket,
    Event.tickLast 106,
    Event.bucket,
    Event.exitSample 1000 106 "B",
    Event.posEnd 15 100 "C",
    Event.status fillEv1 "D" ]

/-- The same trade without the external position change: the exit order fully
flattens the position and the round-trip record is appended. -/
def fullCloseEvs : List Event :=
  [ Event.connected 1,
    Event.posEnd 10 100 "A",
    Event.tickLast 105,
    Event.bucket,
    Event.tickLast 106,
    Event.bucket,
    Event.exitSample 1000 106 "B",
    Event.status fillEv1 "D" ]

/-- The tracked exit order submitted by `maybeExitOnSample` in the replays. -/
def exitMeta1 : TrackedOrder :=
  { side := Side.sell, role := Role.exit, reason := Reason.rule
    qty := 10, cumQty := 0, oca := some "A" }

/-- Replay state after `connected 1`. -/
def stL1 : BotSt := { initState cfgL with nextOrderId := 1 }

/-- Replay state after adopting the broker position 10 @ 100. -/
def stL2 : BotSt :=
  { stL1 with
    inPosition := true
    shares := 10
    entryPrice := 100
    currentOcaGroup := "A" }

/-- Replay state after the 105 tick. -/
def stL3 : BotSt := { stL2 with lastPrice := 105 }

/-- Replay state after the first (initializing) bucket sample. -/
def stL4 : BotSt :=
  { stL3 with
    prevSamplePrice := 105
    haveFirstSample := true }

/-- Replay state after the 106 tick. -/
def stL5 : BotSt := { stL4 with lastPrice := 106 }

/-- Replay state after the second bucket sample (up-streak 1). -/
def stL6 : BotSt :=
  { stL5 with
    prevSamplePrice := 106
    upStreak := 1 }

/-- Replay state after the rule exit submits order 1 for all 10 shares. -/
def stL7 : BotSt :=
  { stL6 with
    upStreak := 0
    nextOrderId := 2
    orderPending := true
    lastOrderTime := 1000
    openExitOrderIds := [1]
    pendingExitQty := 10
    orders := [(1, exitMeta1)] }

/-- Replay state after the external resync to 15 shares. -/
def stL8 : BotSt :=
  { stL7 with
    shares := 15
    openExitOrderIds := []
    pendingExitQty := 0
    currentOcaGroup := "C" }

/-- Replay state after order 1 fills against the enlarged position: 20 of
realized P&L enter equity with no Trade Record. -/
def stL9 : BotSt :=
  { stL8 with
    equity := 1020
    shares := 5
    orderPending := false
    orders := [] }

/-- The closing Trade Record of the full-close replay. -/
def closeRec1 : TxRecord :=
  { symbol := "NVDA", side := Side.sell, price := 102, shares := 0
    profit := 20, newCapital := 1020, tradeIndex := 0
    reason := some Reason.rule }

/-- Final state of the full-close replay: the fill flattens the position and
`recordFlat` appends the 20-profit record. -/
def stF8 : BotSt :=
  { stL7 with
    equity := 1020
    inPosition := false
    entryPrice := 0
    shares := 0
    orderPending := false
    pendingExitQty := 0
    openExitOrderIds := []
    currentOcaGroup := ""
    orders := []
    txLog := [closeRec1] }

/-- An open long position of 10 shares at entry 100 with one working exit
order (id 7, quantity 10) fully covering it. -/
def openLongSt : BotSt :=
  { initState cfgL with
    inPosition := true
    shares := 10
    entryPrice := 100
    pendingExitQty := 10
    openExitOrderIds := [7]
    nextOrderId := 8
    orders := [(7, { side := Side.sell, role := Role.exit
                     reason := Reason.rule, qty := 10, cumQty := 0
                     oca := some "A" })]
    currentOcaGroup := "A" }

/-- Terminal fill report for exit order 7: all 10 shares at 102. -/
def fillEv7 : StatusEvent :=
  { orderId := 7, status := "Filled", filled := some 10
    remaining := 0, avgFillPrice := 102 }

/-- A persisted snapshot recorded for a different instrument (AMZN). -/
def snapC9 : Snapshot :=
  { symbol := "AMZN", mode := SideMode.long, equity := 555, entryPrice := 12
    shares := 7, tradeCounter := 3, pendingExitQty := 2, currentOcaGroup := "Z" }

/-- Sampler state holding a previous bucket sample of 105 with a live last
price of 106 and a stale down-streak of 3. -/
def stC7 : BotSt :=
  { initState cfgL with
    lastPrice := 106
    prevSamplePrice := 105
    haveFirstSample := true
    downStreak := 3
    upStreak := 0 }

/-- Sampler state before the very first bucket sample (live price 50). -/
def stC7first : BotSt := { initState cfgL with lastPrice := 50 }

/-- A long-mode state whose position sign was flipped by an external fill:
four shares short while the configured mode is long. -/
def flipSt : BotSt :=
  { initState cfgL with
    inPosition := true
    shares := -4
    pendingExitQty := 4
    openExitOrderIds := [3]
    currentOcaGroup := "G" }

/-- The audit Trade Record appended by the external-flatten reconciliation in
the post-flatten sampler replay (broker reports the position gone while the
last price is 104). -/
def auditRecD : TxRecord :=
  { symbol := "NVDA", side := Side.sell, price := 104, shares := 0
    profit := 0, newCapital := 1000, tradeIndex := 0
    reason := some Reason.rule }

/-- Replay state after the external flatten: the position is gone but the
sampler memory — `haveFirstSample`, `prevSamplePrice` and the down-streak of
1 — survives untouched. -/
def stD7 : BotSt :=
  { stL4 with
    lastPrice := 104
    prevSamplePrice := 104
    downStreak := 1
    inPosition := false
    shares := 0
    entryPrice := 0
    currentOcaGroup := ""
    txLog := [auditRecD] }

/-- Replay state after the 103 tick that follows the flatten. -/
def stD8 : BotSt := { stD7 with lastPrice := 103 }

/-- Replay state after the first bucket sample taken after the flatten: far
from re-initializing, it extends the surviving down-streak to 2. -/
def stD9 : BotSt :=
  { stD8 with
    prevSamplePrice := 103
    downStreak := 2 }

/-- The entry order submitted on the first sample after the flatten. -/
def entryMetaD : TrackedOrder :=
  { side := Side.buy, role := Role.entry, reason := Reason.rule
    qty := 9, cumQty := 0, oca := none }

/-- Replay state after that sample's decision evaluation submits entry
order 1 for 9 shares. -/
def stD10 : BotSt :=
  { stD9 with
    downStreak := 0
    upStreak := 0
    nextOrderId := 2
    orderPending := true
    lastOrderTime := 600
    openEntryOrderId := some 1
    orders := [(1, entryMetaD)] }

/-- A run ending in an external flatten while the sampler holds a down-streak
of 1: the broker position 10 @ 100 is adopted, samples 105 then 104 arrive
(with their no-op decision evaluations), then the broker reports the
position gone. -/
def c7FlatEvs : List Event :=
  [ Event.connected 1,
    Event.posEnd 10 100 "A",
    Event.tickLast 105,
    Event.bucket,
    Event.tickLast 104,
    Event.bucket,
    Event.exitSample 500 104 "B",
    Event.enterSample 500 104,
    Event.posEnd 0 0 "C" ]

/-- The same run continued by the first bucket sample after the flatten
(price 103) and its exit-side decision evaluation. -/
def c7PreEvs : List Event :=
  c7FlatEvs ++ [Event.tickLast 103, Event.bucket, Event.exitSample 600 103 "D"]

/-- The full post-flatten replay: the entry-side decision evaluation of the
first sample after the flatten submits an entry order. -/
def c7Evs : List Event :=
  c7PreEvs ++ [Event.enterSample 600 103]


end TradingBot

namespace TradingBot

theorem ordLookup_ordErase (os : List (ℤ × TrackedOrder)) (i : ℤ) :
    ordLookup (ordErase os i) i = none := by
  unfold ordLookup ordErase
  rw [Option.map_eq_none']
  rw [List.find?_eq_none]
  intro x hx
  have h := List.of_mem_filter hx
  simpa using h

theorem jsMax_eq_max (a b : ℚ) : jsMax a b = max a b := by
  unfold jsMax
  rw [max_def]

theorem jsMin_eq_min (a b : ℚ) : jsMin a b = min a b := by
  unfold jsMin
  rw [min_comm, min_def]

theorem jsAbs_eq_abs (a : ℚ) : jsAbs a = |a| := by
  unfold jsAbs
  split_ifs with h
  · exact (abs_of_neg h).symm
  · exact (abs_of_nonneg (le_of_not_lt h)).symm

theorem ensureNoFlip_equity (cfg : Config) (st : BotSt) :
    (ensureNoFlip cfg st).1.equity = st.equity := by
  simp only [ensureNoFlip]
  split_ifs <;> rfl

theorem ensureNoFlip_txLog (cfg : Config) (st : BotSt) :
    (ensureNoFlip cfg st).1.txLog = st.txLog := by
  simp only [ensureNoFlip]
  split_ifs <;> rfl

theorem ensureNoFlip_orders (cfg : Config) (st : BotSt) :
    (ensureNoFlip cfg st).1.orders = st.orders := by
  simp only [ensureNoFlip]
  split_ifs <;> rfl

theorem ensureNoFlip_entryPrice (cfg : Config) (st : BotSt) :
    (ensureNoFlip cfg st).1.entryPrice = st.entryPrice := by
  simp only [ensureNoFlip]
  split_ifs <;> rfl

theorem ensureNoFlip_shares (cfg : Config) (st : BotSt) :
    (ensureNoFlip cfg st).1.shares =
      if (cfg.mode = SideMode.long ∧ st.shares < 0) ∨
         (cfg.mode = SideMode.short ∧ st.shares > 0) then 0 else st.shares := by
  cases hm : cfg.mode with
  | long =>
    by_cases hs : st.shares < 0 <;> simp [ensureNoFlip, hm, hs]
  | short =>
    by_cases hs : st.shares > 0 <;> simp [ensureNoFlip, hm, hs]

theorem ensureNoFlip_of_consistent (cfg : Config) (st : BotSt)
    (h1 : ¬ (cfg.mode = SideMode.long ∧ st.shares < 0))
    (h2 : ¬ (cfg.mode = SideMode.short ∧ st.shares > 0)) :
    ensureNoFlip cfg st = (st, []) := by
  cases hm : cfg.mode with
  | long =>
    have hs : ¬ st.shares < 0 := fun h => h1 ⟨hm, h⟩
    simp [ensureNoFlip, hm, hs]
  | short =>
    have hs : ¬ st.shares > 0 := fun h => h2 ⟨hm, h⟩
    simp [ensureNoFlip, hm, hs]

theorem jsMax_zero_nonneg (x : ℚ) : 0 ≤ jsMax 0 x := by
  unfold jsMax
  split_ifs with h
  · exact h
  · exact le_refl 0

theorem sumProfit_append (l : List TxRecord) (r : TxRecord) :
    sumProfit (l ++ [r]) = sumProfit l + r.profit := by
  simp [sumProfit]

theorem placeOrderSafe_ok_fields (now : ℤ) (st : BotSt) (req : OrderReq)
    (oid : ℤ) (st1 : BotSt)
    (h : placeOrderSafe now st req = Except.ok (oid, st1)) :
    st1.equity = st.equity ∧ st1.txLog = st.txLog ∧
    st1.shares = st.shares ∧ st1.pendingExitQty = st.pendingExitQty ∧
    st1.inPosition = st.inPosition ∧ st1.entryPrice = st.entryPrice := by
  unfold placeOrderSafe at h
  split_ifs at h <;>
    first
      | exact Except.noConfusion h
      | (simp only [Except.ok.injEq, Prod.mk.injEq] at h
         rcases h with ⟨-, h⟩
         subst h
         exact ⟨rfl, rfl, rfl, rfl, rfl, rfl⟩)

theorem maybeExitOnSample_ledger (cfg : Config) (now : ℤ) (st : BotSt)
    (s : ℚ) (oca : String) :
    (maybeExitOnSample cfg now st s oca).equity = st.equity ∧
    (maybeExitOnSample cfg now st s oca).txLog = st.txLog := by
  unfold maybeExitOnSample
  dsimp only
  split_ifs <;> try exact ⟨rfl, rfl⟩
  all_goals
    split
  all_goals try exact ⟨rfl, rfl⟩
  all_goals (
    rename_i oid st1 hps
    obtain ⟨he, ht, -, -, -, -⟩ := placeOrderSafe_ok_fields _ _ _ _ _ hps
    split_ifs <;> exact ⟨he, ht⟩)

theorem maybeEnterOnSample_ledger (cfg : Config) (now : ℤ) (st : BotSt)
    (s : ℚ) :
    (maybeEnterOnSample cfg now st s).equity = st.equity ∧
    (maybeEnterOnSample cfg now st s).txLog = st.txLog := by
  unfold maybeEnterOnSample
  dsimp only
  split_ifs <;> try exact ⟨rfl, rfl⟩
  all_goals
    split
  all_goals try exact ⟨rfl, rfl⟩
  all_goals (
    rename_i oid st1 hps
    obtain ⟨he, ht, -, -, -, -⟩ := placeOrderSafe_ok_fields _ _ _ _ _ hps
    split_ifs <;> exact ⟨he, ht⟩)

theorem bucketTick_ledger (st : BotSt) :
    (bucketTick st).1.equity = st.equity ∧
    (bucketTick st).1.txLog = st.txLog ∧
    (bucketTick st).1.pendingExitQty = st.pendingExitQty := by
  unfold bucketTick
  dsimp only
  split_ifs <;> exact ⟨rfl, rfl, rfl⟩

theorem ensureNoFlip_pending (cfg : Config) (st : BotSt)
    (h : 0 ≤ st.pendingExitQty) :
    0 ≤ (ensureNoFlip cfg st).1.pendingExitQty := by
  unfold ensureNoFlip
  dsimp only
  split_ifs <;> first | exact le_refl 0 | exact h

theorem stepL1 : step cfgL (initState cfgL) (Event.connected 1) = stL1 := by
  decide

theorem stepL2 : step cfgL stL1 (Event.posEnd 10 100 "A") = stL2 := by decide

theorem stepL3 : step cfgL stL2 (Event.tickLast 105) = stL3 := by decide

theorem stepL4 : step cfgL stL3 Event.bucket = stL4 := by decide

theorem stepL5 : step cfgL stL4 (Event.tickLast 106) = stL5 := by decide

theorem stepL6 : step cfgL stL5 Event.bucket = stL6 := by decide

theorem stepL7 : step cfgL stL6 (Event.exitSample 1000 106 "B") = stL7 := by
  have h106 : (106:ℚ) > 100 := by norm_num
  have hq : jsMax 0 (jsAbs (10:ℚ)) = 10 := by norm_num [jsMax, jsAbs]
  have hn : ¬ ((10:ℚ) ≤ 0) := by norm_num
  simp [step, maybeExitOnSample, placeOrderSafe, hasOutstandingOrders, ordInsert,
    ORDER_COOLDOWN_MS, stL6, stL5, stL4, stL3, stL2, stL1, initState, cfgL,
    stL7, exitMeta1, h106, hq, hn]

theorem stepL8 : step cfgL stL7 (Event.posEnd 15 100 "C") = stL8 := by decide

theorem stepL9 : step cfgL stL8 (Event.status fillEv1 "D") = stL9 := by
  have ha : jsMax 0 (-10 : ℚ) = 0 := by norm_num [jsMax]
  have hb : (15:ℚ) - 10 = 5 := by norm_num
  have hc : ¬ ((5:ℚ) < 0) := by norm_num
  have hd : ¬ ((5:ℚ) = 0) := by norm_num
  have he : (1000:ℚ) + 10 * (102 - 100) = 1020 := by norm_num
  have hf : (10:ℚ) * (102 - 100) = 20 := by norm_num
  have hg : (1000:ℚ) + 20 = 1020 := by norm_num
  simp [step, handleOrderStatus, ordLookup, ordInsert, ordErase, ensureNoFlip,
    recordFlat, fillEv1, stL8, stL7, stL6, stL5, stL4, stL3, stL2, stL1, initState,
    cfgL, stL9, exitMeta1, ha, hb, hc, hd, he, hf, hg]

theorem stepF8 : step cfgL stL7 (Event.status fillEv1 "D") = stF8 := by
  have ha : jsMax 0 ((10:ℚ) - 10) = 0 := by norm_num [jsMax]
  have hb : (10:ℚ) - 10 = 0 := by norm_num
  have hf : (10:ℚ) * (102 - 100) = 20 := by norm_num
  have hg : (1000:ℚ) + 20 = 1020 := by norm_num
  simp [step, handleOrderStatus, ordLookup, ordInsert, ordErase, ensureNoFlip,
    recordFlat, fillEv1, stL7, stL6, stL5, stL4, stL3, stL2, stL1, initState,
    cfgL, stF8, closeRec1, exitMeta1, ha, hb, hf, hg]


theorem recordFlat_equity (cfg : Config) (st : BotSt) (pr price : ℚ)
    (r : Option Reason) :
    (recordFlat cfg st pr price r).1.equity = st.equity + pr := rfl

theorem recordFlat_sumProfit (cfg : Config) (st : BotSt) (pr price : ℚ)
    (r : Option Reason) :
    sumProfit (recordFlat cfg st pr price r).1.txLog = sumProfit st.txLog + pr := by
  unfold recordFlat
  dsimp only
  rw [sumProfit_append]

theorem handleOrderStatus_preserves (cfg : Config) (st : BotSt) (e : StatusEvent)
    (oca : String)
    (hinv : equityMatchesLog cfg st)
    (hok : exitFillLeavesOpen cfg st e = false) :
    equityMatchesLog cfg (handleOrderStatus cfg st e oca).1 := by
  unfold handleOrderStatus
  unfold exitFillLeavesOpen at hok
  rcases hml : ordLookup st.orders e.orderId with _ | meta0
  · exact hinv
  · rw [hml] at hok
    dsimp only at hok ⊢
    cases hfil : e.filled with
    | none =>
      dsimp only
      by_cases hC : e.status = "Cancelled"
      · rw [if_pos hC]
        exact hinv
      · rw [if_neg hC]
        by_cases hT : e.status = "Filled" ∨ e.remaining = 0
        · rw [if_pos hT]
          by_cases hR : meta0.role = Role.entry
          · rw [if_pos hR]
            unfold equityMatchesLog
            try dsimp only
            rw [ensureNoFlip_equity, ensureNoFlip_txLog]
            try dsimp only
            rw [sumProfit_append]
            try dsimp only
            rw [add_zero]
            exact hinv
          · rw [if_neg hR]
            have hrole : meta0.role = Role.exit := by
              cases hr : meta0.role
              · exact absurd hr hR
              · rfl
            rw [if_neg hC, if_pos hT, if_pos hrole] at hok
            try dsimp only at hok
            have hs2 := of_decide_eq_false hok
            rw [not_not] at hs2
            rw [ensureNoFlip_shares]
            try dsimp only
            rw [if_pos hs2]
            unfold equityMatchesLog
            try dsimp only
            rw [recordFlat_equity, recordFlat_sumProfit]
            rw [ensureNoFlip_equity, ensureNoFlip_txLog]
            try dsimp only
            unfold equityMatchesLog at hinv
            linarith [hinv]
        · rw [if_neg hT]
          exact hinv
    | some f =>
      dsimp only
      by_cases hC : e.status = "Cancelled"
      · rw [if_pos hC]
        exact hinv
      · rw [if_neg hC]
        by_cases hT : e.status = "Filled" ∨ e.remaining = 0
        · rw [if_pos hT]
          by_cases hR : meta0.role = Role.entry
          · rw [if_pos hR]
            unfold equityMatchesLog
            try dsimp only
            rw [ensureNoFlip_equity, ensureNoFlip_txLog]
            try dsimp only
            rw [sumProfit_append]
            try dsimp only
            rw [add_zero]
            exact hinv
          · rw [if_neg hR]
            have hrole : meta0.role = Role.exit := by
              cases hr : meta0.role
              · exact absurd hr hR
              · rfl
            rw [if_neg hC, if_pos hT, if_pos hrole] at hok
            try dsimp only at hok
            have hs2 := of_decide_eq_false hok
            rw [not_not] at hs2
            rw [ensureNoFlip_shares]
            try dsimp only
            rw [if_pos hs2]
            unfold equityMatchesLog
            try dsimp only
            rw [recordFlat_equity, recordFlat_sumProfit]
            rw [ensureNoFlip_equity, ensureNoFlip_txLog]
            try dsimp only
            unfold equityMatchesLog at hinv
            linarith [hinv]
        · rw [if_neg hT]
          exact hinv

theorem handlePositionEnd_preserves (cfg : Config) (st : BotSt)
    (pos cost : ℚ) (oca : String)
    (hinv : equityMatchesLog cfg st) :
    equityMatchesLog cfg (handlePositionEnd cfg st pos cost oca).1 := by
  unfold handlePositionEnd
  dsimp only
  by_cases h1 : st.inPosition ∧ pos = 0
  · rw [if_pos h1]
    unfold equityMatchesLog
    dsimp only
    rw [sumProfit_append]
    dsimp only
    rw [add_zero]
    exact hinv
  · rw [if_neg h1]
    split_ifs <;> exact hinv

theorem step_preserves_equityLog (cfg : Config) (st : BotSt) (ev : Event)
    (hinv : equityMatchesLog cfg st)
    (hok : unrecordedRealization cfg st ev = false) :
    equityMatchesLog cfg (step cfg st ev) := by
  cases ev with
  | connected oid => exact hinv
  | tickLast p =>
    unfold step
    dsimp only
    split_ifs <;> exact hinv
  | bucket =>
    have h := bucketTick_ledger st
    unfold step equityMatchesLog
    dsimp only
    rw [h.1, h.2.1]
    exact hinv
  | exitSample now s oca =>
    have h := maybeExitOnSample_ledger cfg now st s oca
    unfold step equityMatchesLog
    dsimp only
    rw [h.1, h.2]
    exact hinv
  | enterSample now s =>
    have h := maybeEnterOnSample_ledger cfg now st s
    unfold step equityMatchesLog
    dsimp only
    rw [h.1, h.2]
    exact hinv
  | status e oca => exact handleOrderStatus_preserves cfg st e oca hinv hok
  | posEnd pos cost oca => exact handlePositionEnd_preserves cfg st pos cost oca hinv

theorem run_preserves_equityLog (cfg : Config) (evs : List Event) (st : BotSt)
    (hinv : equityMatchesLog cfg st)
    (h : recordedRun cfg st evs = true) :
    equityMatchesLog cfg (run cfg st evs) := by
  induction evs generalizing st with
  | nil => exact hinv
  | cons ev evs ih =>
    simp only [recordedRun, Bool.and_eq_true, Bool.not_eq_true'] at h
    obtain ⟨h1, h2⟩ := h
    have hstep := step_preserves_equityLog cfg st ev hinv h1
    exact ih (step cfg st ev) hstep h2

theorem fullClose_recorded :
    recordedRun cfgL (initState cfgL) fullCloseEvs = true := by
  have hb : (10:ℚ) - 10 = 0 := by norm_num
  have hx : exitFillLeavesOpen cfgL stL7 fillEv1 = false := by
    simp [exitFillLeavesOpen, ordLookup, stL7, stL6, stL5, stL4, stL3, stL2, stL1,
      initState, cfgL, exitMeta1, fillEv1, hb]
  simp only [fullCloseEvs, recordedRun, unrecordedRealization,
    stepL1, stepL2, stepL3, stepL4, stepL5, stepL6, stepL7, hx,
    Bool.not_false, Bool.true_and, Bool.and_true, Bool.and_self]

/-- C9: loading a persisted snapshot whose recorded instrument symbol differs
from the configured symbol ignores the snapshot entirely — no field is
merged and the startup state (in particular equity, entry price, shares,
trade counter, pending exit quantity and OCA group at their fresh-start
values) is returned unchanged by the total function `loadStateIfAny`. -/
theorem c9_mismatched_snapshot_ignored (cfg : Config) (st : BotSt)
    (s : Snapshot) (hsym : s.symbol ≠ cfg.symbol) :
    loadStateIfAny cfg st (some s) = st := by
  simp [loadStateIfAny, hsym]

/-- C9 witness: a snapshot recorded for AMZN is ignored by an NVDA run. -/
theorem c9_mismatched_snapshot_ignored_witness :
    loadStateIfAny cfgL (initState cfgL) (some snapC9) = initState cfgL :=
  c9_mismatched_snapshot_ignored cfgL (initState cfgL) snapC9 (by decide)

theorem ensureNoFlip_sampler (cfg : Config) (st : BotSt) :
    (ensureNoFlip cfg st).1.haveFirstSample = st.haveFirstSample ∧
    (ensureNoFlip cfg st).1.downStreak = st.downStreak ∧
    (ensureNoFlip cfg st).1.upStreak = st.upStreak := by
  unfold ensureNoFlip
  dsimp only
  split_ifs <;> exact ⟨rfl, rfl, rfl⟩

theorem placeOrderSafe_haveFirstSample (now : ℤ) (st : BotSt) (req : OrderReq)
    (oid : ℤ) (st1 : BotSt)
    (h : placeOrderSafe now st req = Except.ok (oid, st1)) :
    st1.haveFirstSample = st.haveFirstSample := by
  unfold placeOrderSafe at h
  split_ifs at h <;>
    first
      | exact Except.noConfusion h
      | (simp only [Except.ok.injEq, Prod.mk.injEq] at h
         rcases h with ⟨-, h⟩
         subst h
         rfl)

theorem maybeExitOnSample_haveFirstSample (cfg : Config) (now : ℤ) (st : BotSt)
    (s : ℚ) (oca : String) :
    (maybeExitOnSample cfg now st s oca).haveFirstSample = st.haveFirstSample := by
  unfold maybeExitOnSample
  dsimp only
  split_ifs <;> try rfl
  all_goals split
  all_goals try rfl
  all_goals (
    rename_i oid st1 hps
    have hp := placeOrderSafe_haveFirstSample _ _ _ _ _ hps
    split_ifs <;> exact hp)

theorem maybeEnterOnSample_haveFirstSample (cfg : Config) (now : ℤ)
    (st : BotSt) (s : ℚ) :
    (maybeEnterOnSample cfg now st s).haveFirstSample = st.haveFirstSample := by
  unfold maybeEnterOnSample
  dsimp only
  split_ifs <;> try rfl
  all_goals split
  all_goals try rfl
  all_goals (
    rename_i oid st1 hps
    have hp := placeOrderSafe_haveFirstSample _ _ _ _ _ hps
    split_ifs <;> exact hp)

theorem handlePositionEnd_sampler (cfg : Config) (st : BotSt)
    (pos cost : ℚ) (oca : String) :
    (handlePositionEnd cfg st pos cost oca).1.haveFirstSample = st.haveFirstSample ∧
    (handlePositionEnd cfg st pos cost oca).1.downStreak = st.downStreak ∧
    (handlePositionEnd cfg st pos cost oca).1.upStreak = st.upStreak := by
  unfold handlePositionEnd
  dsimp only
  split_ifs <;> exact ⟨rfl, rfl, rfl⟩

theorem handleOrderStatus_sampler (cfg : Config) (st : BotSt) (e : StatusEvent)
    (oca : String) :
    (handleOrderStatus cfg st e oca).1.haveFirstSample = st.haveFirstSample ∧
    (handleOrderStatus cfg st e oca).1.downStreak = st.downStreak ∧
    (handleOrderStatus cfg st e oca).1.upStreak = st.upStreak := by
  unfold handleOrderStatus
  rcases hml : ordLookup st.orders e.orderId with _ | meta0
  · exact ⟨rfl, rfl, rfl⟩
  · dsimp only
    cases hfil : e.filled <;> dsimp only
    all_goals (
      by_cases hC : e.status = "Cancelled"
      · rw [if_pos hC]
        dsimp only
        exact ⟨rfl, rfl, rfl⟩
      · rw [if_neg hC]
        by_cases hT : e.status = "Filled" ∨ e.remaining = 0
        · rw [if_pos hT]
          by_cases hR : meta0.role = Role.entry
          · rw [if_pos hR]
            dsimp only
            exact ensureNoFlip_sampler cfg _
          · rw [if_neg hR]
            split_ifs <;> exact ensureNoFlip_sampler cfg _
        · rw [if_neg hT]
          exact ⟨rfl, rfl, rfl⟩)

theorem step_haveFirstSample (cfg : Config) (st : BotSt) (ev : Event)
    (h : st.haveFirstSample = true) :
    (step cfg st ev).haveFirstSample = true := by
  cases ev with
  | connected oid => exact h
  | tickLast p =>
    unfold step
    dsimp only
    split_ifs <;> exact h
  | bucket =>
    show (bucketTick st).1.haveFirstSample = true
    unfold bucketTick
    dsimp only
    split_ifs <;> first | rfl | exact h
  | exitSample now s oca =>
    exact (maybeExitOnSample_haveFirstSample cfg now st s oca).trans h
  | enterSample now s =>
    exact (maybeEnterOnSample_haveFirstSample cfg now st s).trans h
  | status e oca =>
    exact ((handleOrderStatus_sampler cfg st e oca).1).trans h
  | posEnd pos cost oca =>
    exact ((handlePositionEnd_sampler cfg st pos cost oca).1).trans h

theorem stepD10 : step cfgL stD9 (Event.enterSample 600 103) = stD10 := by
  have hfl : ⌊(1000:ℚ) * 1 / 103⌋ = (9:ℤ) := by norm_num [Int.floor_eq_iff]
  have hfl2 : ⌊(1000:ℚ) / 103⌋ = (9:ℤ) := by norm_num [Int.floor_eq_iff]
  have h9 : ¬ ((9:ℚ) ≤ 0) := by norm_num
  simp [step, maybeEnterOnSample, placeOrderSafe, hasOutstandingOrders, ordInsert,
    ORDER_COOLDOWN_MS, stD9, stD8, stD7, stL4, stL3, stL2, stL1, initState,
    cfgL, stD10, entryMetaD, auditRecD, hfl, hfl2, h9]

/-- C7 counterexample: the first bucket sample after a flatten is not an
initializing sample.  In a reachable long-mode run the broker position
10 @ 100 is adopted, samples 105 then 104 leave a down-streak of 1, and an
external flatten (`positionEnd` reporting the position gone) forces the
ledger flat without resetting `haveFirstSample` or the streaks.  The next
bucket sample (103) therefore extends the down-streak to 2 instead of only
recording `prevSamplePrice`, reaches the decision evaluation, and that
decision submits entry order 1 (consuming an order id) — refuting the claim
that the first sample after a flatten only initializes the previous bucket
sample and never triggers a decision. -/
theorem c7_counterexample :
    (run cfgL (initState cfgL) c7FlatEvs).inPosition = false ∧
    (run cfgL (initState cfgL) c7FlatEvs).shares = 0 ∧
    (run cfgL (initState cfgL) c7FlatEvs).haveFirstSample = true ∧
    (run cfgL (initState cfgL) c7FlatEvs).downStreak = 1 ∧
    (bucketTick (run cfgL (initState cfgL)
      (c7FlatEvs ++ [Event.tickLast 103]))).2 = true ∧
    (run cfgL (initState cfgL) c7PreEvs).downStreak = 2 ∧
    (run cfgL (initState cfgL) c7Evs).openEntryOrderId = some 1 ∧
    (run cfgL (initState cfgL) c7Evs).nextOrderId = 2 := by
  have hpre : run cfgL (initState cfgL) c7PreEvs = stD9 := by decide
  have hrun : run cfgL (initState cfgL) c7Evs = stD10 := by
    have hsplit : run cfgL (initState cfgL) c7Evs
        = step cfgL (run cfgL (initState cfgL) c7PreEvs)
            (Event.enterSample 600 103) := by
      simp only [run, c7Evs, List.foldl_append, List.foldl]
    rw [hsplit, hpre]
    exact stepD10
  refine ⟨by decide, by decide, by decide, by decide, by decide, by decide, ?_, ?_⟩
  · rw [hrun]
    decide
  · rw [hrun]
    decide

/-- C7 (corrected): after every bucket-sample streak update the counters are
mutually exclusive (one of them is zero): a sample above the previous one
increments the up-streak and zeroes the down-streak, a sample below does the
symmetric opposite, an equal sample zeroes both; the first sample after
startup — the one taken with `haveFirstSample` still unset — only records
`prevSamplePrice` and never reaches the decision evaluation.  A flatten,
however, is not a restart: the settlement and reconciliation handlers leave
`haveFirstSample` and both streak counters untouched, and no event ever
resets `haveFirstSample`, so once it is set every further sample — including
the first one after a flatten — updates the streaks and reaches the decision
evaluation. -/
theorem c7_sampler_streak_update (cfg : Config) (st : BotSt) (e : StatusEvent)
    (oca : String) (pos cost : ℚ) :
    (st.lastPrice > 0 → st.haveFirstSample = true →
      ((bucketTick st).1.downStreak = 0 ∨ (bucketTick st).1.upStreak = 0) ∧
      (st.lastPrice > st.prevSamplePrice →
        (bucketTick st).1.upStreak = st.upStreak + 1 ∧
        (bucketTick st).1.downStreak = 0) ∧
      (st.lastPrice < st.prevSamplePrice →
        (bucketTick st).1.downStreak = st.downStreak + 1 ∧
        (bucketTick st).1.upStreak = 0) ∧
      (st.lastPrice = st.prevSamplePrice →
        (bucketTick st).1.downStreak = 0 ∧ (bucketTick st).1.upStreak = 0)) ∧
    (st.lastPrice > 0 → st.haveFirstSample = false →
      (bucketTick st).2 = false ∧
      (bucketTick st).1.prevSamplePrice = st.lastPrice ∧
      (bucketTick st).1.haveFirstSample = true ∧
      (bucketTick st).1.downStreak = st.downStreak ∧
      (bucketTick st).1.upStreak = st.upStreak) ∧
    (st.lastPrice > 0 → st.haveFirstSample = true → (bucketTick st).2 = true) ∧
    ((handlePositionEnd cfg st pos cost oca).1.haveFirstSample
        = st.haveFirstSample ∧
      (handlePositionEnd cfg st pos cost oca).1.downStreak = st.downStreak ∧
      (handlePositionEnd cfg st pos cost oca).1.upStreak = st.upStreak) ∧
    ((handleOrderStatus cfg st e oca).1.haveFirstSample = st.haveFirstSample ∧
      (handleOrderStatus cfg st e oca).1.downStreak = st.downStreak ∧
      (handleOrderStatus cfg st e oca).1.upStreak = st.upStreak) ∧
    (∀ ev : Event, st.haveFirstSample = true →
      (step cfg st ev).haveFirstSample = true) := by
  refine ⟨?_, ?_, ?_, handlePositionEnd_sampler cfg st pos cost oca,
    handleOrderStatus_sampler cfg st e oca,
    fun ev hfs => step_haveFirstSample cfg st ev hfs⟩
  · intro hp hfs
    have hnle : ¬ st.lastPrice ≤ 0 := not_le.2 hp
    refine ⟨?_, ?_, ?_, ?_⟩
    · by_cases hlt : st.lastPrice < st.prevSamplePrice
      · right; simp [bucketTick, hnle, hfs, hlt]
      · by_cases hgt : st.lastPrice > st.prevSamplePrice
        · left; simp [bucketTick, hnle, hfs, hlt, hgt]
        · left; simp [bucketTick, hnle, hfs, hlt, hgt]
    · intro hgt
      have hlt : ¬ st.lastPrice < st.prevSamplePrice := not_lt.2 (le_of_lt hgt)
      constructor <;> simp [bucketTick, hnle, hfs, hlt, hgt]
    · intro hlt
      constructor <;> simp [bucketTick, hnle, hfs, hlt]
    · intro heq
      have hlt : ¬ st.lastPrice < st.prevSamplePrice := by rw [heq]; exact lt_irrefl _
      have hgt : ¬ st.lastPrice > st.prevSamplePrice := by rw [heq]; exact lt_irrefl _
      constructor <;> simp [bucketTick, hnle, hfs, hlt, hgt]
  · intro hp hfs
    have hnle : ¬ st.lastPrice ≤ 0 := not_le.2 hp
    simp [bucketTick, hnle, hfs]
  · intro hp hfs
    have hnle : ¬ st.lastPrice ≤ 0 := not_le.2 hp
    simp [bucketTick, hnle, hfs]

/-- C7 witness: a 105 → 106 sample move yields mutually exclusive counters
with the up-streak incremented and reaches the decision evaluation, the very
first sample (live price 50) does not, and a reconciliation event leaves the
first-sample flag set. -/
theorem c7_sampler_streak_update_witness :
    ((bucketTick stC7).1.downStreak = 0 ∨ (bucketTick stC7).1.upStreak = 0) ∧
    (bucketTick stC7).1.upStreak = stC7.upStreak + 1 ∧
    (bucketTick stC7first).2 = false ∧
    (bucketTick stC7).2 = true ∧
    (step cfgL stC7 (Event.posEnd 0 0 "Z")).haveFirstSample = true :=
  ⟨((c7_sampler_streak_update cfgL stC7 fillEv1 "X" 0 0).1
      (by decide) (by decide)).1,
   (((c7_sampler_streak_update cfgL stC7 fillEv1 "X" 0 0).1
      (by decide) (by decide)).2.1 (by decide)).1,
   ((c7_sampler_streak_update cfgL stC7first fillEv1 "X" 0 0).2.1
      (by decide) (by decide)).1,
   (c7_sampler_streak_update cfgL stC7 fillEv1 "X" 0 0).2.2.1
      (by decide) (by decide),
   (c7_sampler_streak_update cfgL stC7 fillEv1 "X" 0 0).2.2.2.2.2
      (Event.posEnd 0 0 "Z") (by decide)⟩

/-- C8 counterexample: no rounding to the instrument's minimum price
increment happens.  With tick size 0.01, a bid of 101.237 above the
profit floor is used verbatim as the sell limit, and the quotient
limit / tickSize has denominator 10, i.e. the limit is not an integer
multiple of the increment — refuting the claimed rounding. -/
theorem c8_counterexample :
    chooseSellLimitForLong cfgL (101237/1000) 100 0 = 101237/1000 ∧
    ((chooseSellLimitForLong cfgL (101237/1000) 100 0) / cfgL.tickSize).den = 10 := by
  constructor
  · norm_num [chooseSellLimitForLong, cfgL, jsMax]
  · norm_num [chooseSellLimitForLong, cfgL, jsMax]

/-- C8 (amended): the exit limit price guarantees at least one tick of
nominal profit over entry — the sell limit for a long exit is at least
`entry + tickSize` and the cover limit for a short exit is at most
`entry - tickSize` — with bid (long) or ask (short) as the reference price
when positive, falling back to the last trade price; no rounding to the
minimum price increment is performed. -/
theorem c8_exit_limit_profit_guarantee (cfg : Config)
    (bid ask entry fallback current : ℚ) :
    (entry + cfg.tickSize ≤ chooseSellLimitForLong cfg bid entry fallback) ∧
    (chooseCoverLimitForShort cfg ask entry fallback ≤ entry - cfg.tickSize) ∧
    (entry + cfg.tickSize ≤ profitableSellLimit cfg current entry) ∧
    (profitableCoverLimit cfg current entry ≤ entry - cfg.tickSize) ∧
    (bid > 0 →
      chooseSellLimitForLong cfg bid entry fallback =
        max bid (entry + cfg.tickSize)) ∧
    (¬ bid > 0 →
      chooseSellLimitForLong cfg bid entry fallback =
        max fallback (entry + cfg.tickSize)) ∧
    (ask > 0 →
      chooseCoverLimitForShort cfg ask entry fallback =
        min ask (entry - cfg.tickSize)) ∧
    (¬ ask > 0 →
      chooseCoverLimitForShort cfg ask entry fallback =
        min fallback (entry - cfg.tickSize)) := by
  refine ⟨?_, ?_, ?_, ?_, ?_, ?_, ?_, ?_⟩
  · simp only [chooseSellLimitForLong, jsMax_eq_max]; exact le_max_right _ _
  · simp only [chooseCoverLimitForShort, jsMin_eq_min]; exact min_le_right _ _
  · simp only [profitableSellLimit, jsMax_eq_max]; exact le_max_right _ _
  · simp only [profitableCoverLimit, jsMin_eq_min]; exact min_le_right _ _
  · intro h; simp [chooseSellLimitForLong, jsMax_eq_max, h]
  · intro h; simp [chooseSellLimitForLong, jsMax_eq_max, h]
  · intro h; simp [chooseCoverLimitForShort, jsMin_eq_min, h]
  · intro h; simp [chooseCoverLimitForShort, jsMin_eq_min, h]

/-- C8 witness: with entry 100 and tick 0.01 the bid 101.237 is the
reference and the sell limit honours the profit floor. -/
theorem c8_exit_limit_profit_guarantee_witness :
    (100 : ℚ) + cfgL.tickSize ≤ chooseSellLimitForLong cfgL (101237/1000) 100 0 ∧
    chooseSellLimitForLong cfgL (101237/1000) 100 0 =
      max (101237/1000) (100 + cfgL.tickSize) :=
  ⟨(c8_exit_limit_profit_guarantee cfgL (101237/1000) 0 100 0 0).1,
   (c8_exit_limit_profit_guarantee cfgL (101237/1000) 0 100 0 0).2.2.2.2.1
     (by norm_num)⟩

/-- C4 counterexample: the claimed temporal bound fails.  In long mode the
external-resync branch of the position reconciliation adopts a broker
quantity of −5 without any sign check, and the negative position persists
through the following event-processing step (a bucket firing) — so the
position sign contradicts the mode for more than one step. -/
theorem c4_counterexample :
    cfgL.mode = SideMode.long ∧
    (run cfgL (initState cfgL)
      [Event.connected 1, Event.posEnd 10 100 "A",
       Event.posEnd (-5) 100 "B"]).shares = -5 ∧
    (run cfgL (initState cfgL)
      [Event.connected 1, Event.posEnd 10 100 "A",
       Event.posEnd (-5) 100 "B", Event.bucket]).shares = -5 := by
  refine ⟨rfl, by decide, by decide⟩

/-- C4 (amended): `ensureNoFlip` — invoked after entry and exit fill
settlements — always leaves the position sign consistent with the mode, and
whenever mode is long with negative shares or short with positive shares it
forces the position flat (shares 0, pending exit quantity 0, exit orders
cancelled, OCA tag cleared); reconciliation refuses to adopt, from a flat
local state, a broker position whose sign contradicts the mode.  The
external-resync branch, however, performs no such check, so a
mode-contradicting quantity adopted there can persist beyond one
event-processing step. -/
theorem c4_mode_sign_safety (cfg : Config) (st : BotSt) (pos cost : ℚ)
    (oca : String) :
    ((cfg.mode = SideMode.long → 0 ≤ (ensureNoFlip cfg st).1.shares) ∧
     (cfg.mode = SideMode.short → (ensureNoFlip cfg st).1.shares ≤ 0)) ∧
    ((cfg.mode = SideMode.long ∧ st.shares < 0) ∨
     (cfg.mode = SideMode.short ∧ st.shares > 0) →
      (ensureNoFlip cfg st).1.shares = 0 ∧
      (ensureNoFlip cfg st).1.inPosition = false ∧
      (ensureNoFlip cfg st).1.pendingExitQty = 0 ∧
      (ensureNoFlip cfg st).1.openExitOrderIds = [] ∧
      (ensureNoFlip cfg st).1.currentOcaGroup = "" ∧
      (ensureNoFlip cfg st).2 = st.openExitOrderIds) ∧
    (st.inPosition = false → pos ≠ 0 →
      ((cfg.mode = SideMode.long ∧ pos < 0) ∨
       (cfg.mode = SideMode.short ∧ pos > 0)) →
      handlePositionEnd cfg st pos cost oca = (st, [])) := by
  refine ⟨⟨?_, ?_⟩, ?_, ?_⟩
  · intro hm
    rw [ensureNoFlip_shares]
    split_ifs with h
    · exact le_refl 0
    · by_contra hneg
      exact h (Or.inl ⟨hm, not_le.1 hneg⟩)
  · intro hm
    rw [ensureNoFlip_shares]
    split_ifs with h
    · exact le_refl 0
    · by_contra hpos
      exact h (Or.inr ⟨hm, not_le.1 hpos⟩)
  · intro hbad
    rcases hbad with ⟨hm, hs⟩ | ⟨hm, hs⟩ <;>
      simp [ensureNoFlip, hm, hs]
  · intro hip hpos hbad
    rcases hbad with ⟨hm, hs⟩ | ⟨hm, hs⟩ <;>
      simp [handlePositionEnd, hip, hpos, hm, hs, le_of_lt]

/-- C4 witness: in long mode a −4 position is forced flat with its exit
order cancelled, and a flat ledger refuses to adopt a −5 broker position. -/
theorem c4_mode_sign_safety_witness :
    (ensureNoFlip cfgL flipSt).1.shares = 0 ∧
    (ensureNoFlip cfgL flipSt).2 = flipSt.openExitOrderIds ∧
    handlePositionEnd cfgL (initState cfgL) (-5) 100 "B" = (initState cfgL, []) :=
  ⟨((c4_mode_sign_safety cfgL flipSt 0 0 "").2.1
      (Or.inl ⟨rfl, by decide⟩)).1,
   ((c4_mode_sign_safety cfgL flipSt 0 0 "").2.1
      (Or.inl ⟨rfl, by decide⟩)).2.2.2.2.2,
   (c4_mode_sign_safety cfgL (initState cfgL) (-5) 100 "B").2.2
      (by decide) (by decide) (Or.inl ⟨rfl, by decide⟩)⟩

/-- C5: when the local ledger is open but the broker snapshot reports the
instrument flat, reconciliation forces the local position flat, cancels
every locally-tracked exit order, resets the pending exit quantity and the
OCA group, leaves equity untouched, and appends exactly one audit Trade
Record with profit 0. -/
theorem c5_external_flat_reconciliation (cfg : Config) (st : BotSt)
    (cost : ℚ) (oca : String) (hip : st.inPosition = true) :
    (handlePositionEnd cfg st 0 cost oca).1.inPosition = false ∧
    (handlePositionEnd cfg st 0 cost oca).1.shares = 0 ∧
    (handlePositionEnd cfg st 0 cost oca).1.entryPrice = 0 ∧
    (handlePositionEnd cfg st 0 cost oca).1.pendingExitQty = 0 ∧
    (handlePositionEnd cfg st 0 cost oca).1.openExitOrderIds = [] ∧
    (handlePositionEnd cfg st 0 cost oca).1.currentOcaGroup = "" ∧
    (handlePositionEnd cfg st 0 cost oca).2 = st.openExitOrderIds ∧
    (handlePositionEnd cfg st 0 cost oca).1.equity = st.equity ∧
    (handlePositionEnd cfg st 0 cost oca).1.txLog = st.txLog ++
      [{ symbol := cfg.symbol
         side := if cfg.mode = SideMode.long then Side.sell else Side.buy
         price := st.lastPrice
         shares := 0
         profit := 0
         newCapital := st.equity
         tradeIndex := st.tradeCounter
         reason := some Reason.rule }] := by
  simp [handlePositionEnd, hip]

/-- C5 witness: an open 10-share position with one tracked exit order is
cleared when the broker reports flat, cancelling order 7 and appending one
zero-profit audit record. -/
theorem c5_external_flat_reconciliation_witness :
    (handlePositionEnd cfgL openLongSt 0 0 "X").1.inPosition = false ∧
    (handlePositionEnd cfgL openLongSt 0 0 "X").1.shares = 0 ∧
    (handlePositionEnd cfgL openLongSt 0 0 "X").1.entryPrice = 0 ∧
    (handlePositionEnd cfgL openLongSt 0 0 "X").1.pendingExitQty = 0 ∧
    (handlePositionEnd cfgL openLongSt 0 0 "X").1.openExitOrderIds = [] ∧
    (handlePositionEnd cfgL openLongSt 0 0 "X").1.currentOcaGroup = "" ∧
    (handlePositionEnd cfgL openLongSt 0 0 "X").2 = openLongSt.openExitOrderIds ∧
    (handlePositionEnd cfgL openLongSt 0 0 "X").1.equity = openLongSt.equity ∧
    (handlePositionEnd cfgL openLongSt 0 0 "X").1.txLog = openLongSt.txLog ++
      [{ symbol := cfgL.symbol
         side := if cfgL.mode = SideMode.long then Side.sell else Side.buy
         price := openLongSt.lastPrice
         shares := 0
         profit := 0
         newCapital := openLongSt.equity
         tradeIndex := openLongSt.tradeCounter
         reason := some Reason.rule }] :=
  c5_external_flat_reconciliation cfgL openLongSt 0 "X" (by decide)

/-- C1 counterexample: the cooldown alone does not force rejection.  An
entry order submitted at t=0 is cancelled at t=100 ms; at t=200 ms — with
no order outstanding but only 200 ms (< 300 ms) since the last submission —
`placeOrderSafe` accepts a new submission and consumes order id 6 instead
of returning −1, because the cooldown only applies while `orderPending`. -/
theorem c1_counterexample :
    afterCancelSt.openEntryOrderId = none ∧
    afterCancelSt.openExitOrderIds = [] ∧
    (200 : ℤ) - afterCancelSt.lastOrderTime < ORDER_COOLDOWN_MS ∧
    (placeOrderSafe 200 afterCancelSt entryReq3).toOption.map Prod.fst =
      some 6 ∧
    ((placeOrderSafe 200 afterCancelSt entryReq3).toOption.map
      (fun p => p.2.nextOrderId)) = some 7 := by
  refine ⟨by decide, by decide, by decide, by decide, by decide⟩

/-- C1 (amended): whenever an entry order is outstanding, or any exit order
is outstanding, or a submission is pending (`orderPending`) with the
cooldown not yet elapsed, `placeOrderSafe` returns −1 and consumes no
order id — the counter, the orders map and all guard state are unchanged —
so at most one entry order is ever working at a time; and if the
broker-assigned id sequence has not been initialized (`nextOrderId < 0`) it
fails fast by throwing. -/
theorem c1_place_order_guard (now : ℤ) (st : BotSt) (req : OrderReq) :
    (0 ≤ st.nextOrderId →
      (st.openEntryOrderId ≠ none ∨ st.openExitOrderIds ≠ [] ∨
       (st.orderPending = true ∧ now - st.lastOrderTime < ORDER_COOLDOWN_MS)) →
      placeOrderSafe now st req = Except.ok (-1, st)) ∧
    (st.nextOrderId < 0 →
      placeOrderSafe now st req = Except.error "nextValidId not received yet") := by
  constructor
  · intro hid hout
    have hneg : ¬ st.nextOrderId < 0 := not_lt.2 hid
    have hho : hasOutstandingOrders now st = true := by
      unfold hasOutstandingOrders
      split_ifs with h1 h2 h3
      · rfl
      · rfl
      · rfl
      · exfalso
        rcases hout with h | h | h
        · exact h1 (Option.isSome_iff_ne_none.2 h)
        · exact h2 h
        · exact h3 ⟨h.1, h.2⟩
    simp [placeOrderSafe, hneg, hho]
  · intro h
    simp [placeOrderSafe, h]

/-- C1 witness: with entry order 5 outstanding a second submission is
rejected with −1 and the state unchanged; before `nextValidId` the guard
throws. -/
theorem c1_place_order_guard_witness :
    placeOrderSafe 100 afterSubmitSt entryReq3 = Except.ok (-1, afterSubmitSt) ∧
    placeOrderSafe 100 (initState cfgL) entryReq3 =
      Except.error "nextValidId not received yet" :=
  ⟨(c1_place_order_guard 100 afterSubmitSt entryReq3).1 (by decide)
     (Or.inl (by decide)),
   (c1_place_order_guard 100 (initState cfgL) entryReq3).2 (by decide)⟩


/-- C6 counterexample: the round-trip identity fails on a reachable run.
After an externally enlarged position makes the working exit order a
partial cover, its fill adds 20 of realized P&L to equity (1020) while the
Trade Record log stays empty, so capital plus summed profit is 1000. -/
theorem c6_counterexample :
    (run cfgL (initState cfgL) leavesOpenEvs).equity = 1020 ∧
    cfgL.capital + sumProfit (run cfgL (initState cfgL) leavesOpenEvs).txLog
      = 1000 := by
  have hrun : run cfgL (initState cfgL) leavesOpenEvs = stL9 := by
    simp only [run, leavesOpenEvs, List.foldl]
    rw [stepL1, stepL2, stepL3, stepL4, stepL5, stepL6, stepL7, stepL8, stepL9]
  rw [hrun]
  constructor
  · rfl
  · norm_num [sumProfit, stL9, stL8, stL7, stL6, stL5, stL4, stL3, stL2, stL1,
      initState, cfgL]

/-- C6 (amended): for every finite run from the fresh state in which no EXIT
settlement leaves the position open (no partial-exit realization — the one
code path that adds realized P&L to equity without appending a Trade
Record), replaying the Trade Record log and summing profit reproduces the
final equity exactly: capital plus the summed profit equals the equity. -/
theorem c6_replay_reproduces_equity (cfg : Config) (evs : List Event)
    (h : recordedRun cfg (initState cfg) evs = true) :
    (run cfg (initState cfg) evs).equity =
      cfg.capital + sumProfit (run cfg (initState cfg) evs).txLog := by
  have hbase : equityMatchesLog cfg (initState cfg) := by
    unfold equityMatchesLog initState sumProfit
    simp
  exact run_preserves_equityLog cfg evs (initState cfg) hbase h

/-- C6 witness: the same trade closed in full leaves equity 1020 and one
20-profit record; capital plus summed profit reproduces it. -/
theorem c6_replay_reproduces_equity_witness :
    recordedRun cfgL (initState cfgL) fullCloseEvs = true ∧
    (run cfgL (initState cfgL) fullCloseEvs).equity =
      cfgL.capital + sumProfit (run cfgL (initState cfgL) fullCloseEvs).txLog :=
  ⟨fullClose_recorded,
   c6_replay_reproduces_equity cfgL fullCloseEvs fullClose_recorded⟩


theorem maybeExitOnSample_pending (cfg : Config) (now : ℤ) (st : BotSt)
    (s : ℚ) (oca : String) (h : 0 ≤ st.pendingExitQty) :
    0 ≤ (maybeExitOnSample cfg now st s oca).pendingExitQty := by
  unfold maybeExitOnSample
  dsimp only
  split_ifs <;> try exact h
  all_goals split
  all_goals try exact h
  all_goals (
    rename_i oid st1 hps
    obtain ⟨-, -, -, hp, -, -⟩ := placeOrderSafe_ok_fields _ _ _ _ _ hps
    split_ifs <;> try dsimp only
    · rw [hp]; exact h
    · exact add_nonneg (by rw [hp]; exact h) (jsMax_zero_nonneg _))

theorem maybeEnterOnSample_pending (cfg : Config) (now : ℤ) (st : BotSt)
    (s : ℚ) (h : 0 ≤ st.pendingExitQty) :
    0 ≤ (maybeEnterOnSample cfg now st s).pendingExitQty := by
  unfold maybeEnterOnSample
  dsimp only
  split_ifs <;> try exact h
  all_goals split
  all_goals try exact h
  all_goals (
    rename_i oid st1 hps
    obtain ⟨-, -, -, hp, -, -⟩ := placeOrderSafe_ok_fields _ _ _ _ _ hps
    split_ifs <;> try dsimp only
    all_goals (rw [hp]; exact h))

theorem handlePositionEnd_pending (cfg : Config) (st : BotSt)
    (pos cost : ℚ) (oca : String) (h : 0 ≤ st.pendingExitQty) :
    0 ≤ (handlePositionEnd cfg st pos cost oca).1.pendingExitQty := by
  unfold handlePositionEnd
  dsimp only
  split_ifs <;> first | exact le_refl 0 | exact h

theorem handleOrderStatus_pending (cfg : Config) (st : BotSt) (e : StatusEvent)
    (oca : String) (h : 0 ≤ st.pendingExitQty) :
    0 ≤ (handleOrderStatus cfg st e oca).1.pendingExitQty := by
  unfold handleOrderStatus
  rcases hml : ordLookup st.orders e.orderId with _ | meta0
  · exact h
  · dsimp only
    cases hfil : e.filled <;> dsimp only
    all_goals (
      by_cases hC : e.status = "Cancelled"
      · rw [if_pos hC]
        dsimp only
        split_ifs
        · exact jsMax_zero_nonneg _
        · exact h
      · rw [if_neg hC]
        by_cases hT : e.status = "Filled" ∨ e.remaining = 0
        · rw [if_pos hT]
          by_cases hR : meta0.role = Role.entry
          · rw [if_pos hR]
            dsimp only
            exact ensureNoFlip_pending cfg _ (le_refl 0)
          · rw [if_neg hR]
            split_ifs <;>
              first
                | exact le_refl 0
                | exact ensureNoFlip_pending cfg _ (jsMax_zero_nonneg _)
        · rw [if_neg hT]
          exact h)

theorem step_pending_nonneg (cfg : Config) (st : BotSt) (ev : Event)
    (h : 0 ≤ st.pendingExitQty) :
    0 ≤ (step cfg st ev).pendingExitQty := by
  cases ev with
  | connected oid => exact h
  | tickLast p =>
    unfold step
    dsimp only
    split_ifs <;> exact h
  | bucket =>
    unfold step
    dsimp only
    rw [(bucketTick_ledger st).2.2]
    exact h
  | exitSample now s oca => exact maybeExitOnSample_pending cfg now st s oca h
  | enterSample now s => exact maybeEnterOnSample_pending cfg now st s h
  | status e oca => exact handleOrderStatus_pending cfg st e oca h
  | posEnd pos cost oca => exact handlePositionEnd_pending cfg st pos cost oca h

theorem run_pending_nonneg (cfg : Config) (evs : List Event) (st : BotSt)
    (h : 0 ≤ st.pendingExitQty) :
    0 ≤ (run cfg st evs).pendingExitQty := by
  induction evs generalizing st with
  | nil => exact h
  | cons ev evs ih => exact ih (step cfg st ev) (step_pending_nonneg cfg st ev h)

/-- C10: `pendingExitQty` is never negative: from any state in which it is
non-negative, every event-processing step preserves non-negativity — each
submission adds the quantity `max(0, abs(shares) - pendingExitQty)`, and
every decrement on a cancel or fill clamps at zero via `max(0, ...)` —
and hence so does any finite run. -/
theorem c10_pending_exit_nonneg (cfg : Config) (st : BotSt) (ev : Event)
    (evs : List Event) (h : 0 ≤ st.pendingExitQty) :
    0 ≤ (step cfg st ev).pendingExitQty ∧
    0 ≤ (run cfg st evs).pendingExitQty :=
  ⟨step_pending_nonneg cfg st ev h, run_pending_nonneg cfg evs st h⟩

/-- C10 witness: from the open position with 10 pending exit shares, a
cancel report and the whole replay keep the quantity non-negative. -/
theorem c10_pending_exit_nonneg_witness :
    0 ≤ (step cfgL openLongSt
      (Event.status { orderId := 7, status := "Cancelled", filled := some 4
                      remaining := 6, avgFillPrice := 0 } "X")).pendingExitQty ∧
    0 ≤ (run cfgL openLongSt leavesOpenEvs).pendingExitQty :=
  c10_pending_exit_nonneg cfgL openLongSt
    (Event.status { orderId := 7, status := "Cancelled", filled := some 4
                    remaining := 6, avgFillPrice := 0 } "X")
    leavesOpenEvs (by decide)


theorem handleOrderStatus_notfound (cfg : Config) (st : BotSt) (e : StatusEvent)
    (oca : String) (hml : ordLookup st.orders e.orderId = none) :
    handleOrderStatus cfg st e oca = (st, []) := by
  unfold handleOrderStatus
  rw [hml]

theorem handleOrderStatus_terminal_erases (cfg : Config) (st : BotSt)
    (e : StatusEvent) (oca : String)
    (hterm : e.status = "Cancelled" ∨ e.status = "Filled" ∨ e.remaining = 0) :
    ordLookup (handleOrderStatus cfg st e oca).1.orders e.orderId = none := by
  unfold handleOrderStatus
  rcases hml : ordLookup st.orders e.orderId with _ | meta0
  · exact hml
  · dsimp only
    cases hfil : e.filled <;> dsimp only
    all_goals (
      by_cases hC : e.status = "Cancelled"
      · rw [if_pos hC]
        dsimp only
        exact ordLookup_ordErase _ _
      · rw [if_neg hC]
        have hT : e.status = "Filled" ∨ e.remaining = 0 := by
          rcases hterm with h | h | h
          · exact absurd h hC
          · exact Or.inl h
          · exact Or.inr h
        rw [if_pos hT]
        by_cases hR : meta0.role = Role.entry
        · rw [if_pos hR]
          dsimp only
          exact ordLookup_ordErase _ _
        · rw [if_neg hR]
          split_ifs <;> (dsimp only; exact ordLookup_ordErase _ _))

/-- C3: a duplicate report for the same order id is applied exactly once:
processing any terminal status event (Cancelled, Filled, or remaining 0)
removes the order from the tracked map, so re-processing the identical
event is a complete no-op — state unchanged and no cancellations sent —
and equity and the Trade Record log are never touched by a non-terminal
(unfilled) report. -/
theorem c3_duplicate_terminal_ignored (cfg : Config) (st : BotSt)
    (e : StatusEvent) (oca1 oca2 : String) :
    ((e.status = "Cancelled" ∨ e.status = "Filled" ∨ e.remaining = 0) →
      handleOrderStatus cfg (handleOrderStatus cfg st e oca1).1 e oca2 =
        ((handleOrderStatus cfg st e oca1).1, [])) ∧
    ((e.status ≠ "Cancelled" ∧ e.status ≠ "Filled" ∧ e.remaining ≠ 0) →
      (handleOrderStatus cfg st e oca1).1.equity = st.equity ∧
      (handleOrderStatus cfg st e oca1).1.txLog = st.txLog) := by
  constructor
  · intro hterm
    exact handleOrderStatus_notfound _ _ _ _
      (handleOrderStatus_terminal_erases cfg st e oca1 hterm)
  · rintro ⟨h1, h2, h3⟩
    have hT : ¬ (e.status = "Filled" ∨ e.remaining = 0) := by
      rintro (h | h)
      · exact h2 h
      · exact h3 h
    unfold handleOrderStatus
    rcases hml : ordLookup st.orders e.orderId with _ | meta0
    · exact ⟨rfl, rfl⟩
    · dsimp only
      cases hfil : e.filled <;> dsimp only <;>
        (rw [if_neg h1, if_neg hT]; exact ⟨rfl, rfl⟩)

/-- C3 witness: replaying the terminal fill of exit order 7 a second time
changes nothing and sends no cancellations. -/
theorem c3_duplicate_terminal_ignored_witness :
    handleOrderStatus cfgL (handleOrderStatus cfgL openLongSt fillEv7 "N").1
        fillEv7 "M" =
      ((handleOrderStatus cfgL openLongSt fillEv7 "N").1, []) :=
  (c3_duplicate_terminal_ignored cfgL openLongSt fillEv7 "N" "M").1
    (Or.inr (Or.inl rfl))

theorem ensureNoFlip_pendingEq (cfg : Config) (st : BotSt) :
    (ensureNoFlip cfg st).1.pendingExitQty =
      if (cfg.mode = SideMode.long ∧ st.shares < 0) ∨
         (cfg.mode = SideMode.short ∧ st.shares > 0) then 0
      else st.pendingExitQty := by
  cases hm : cfg.mode with
  | long => by_cases hs : st.shares < 0 <;> simp [ensureNoFlip, hm, hs]
  | short => by_cases hs : st.shares > 0 <;> simp [ensureNoFlip, hm, hs]

theorem ensureNoFlip_openExit (cfg : Config) (st : BotSt) :
    (ensureNoFlip cfg st).1.openExitOrderIds =
      if (cfg.mode = SideMode.long ∧ st.shares < 0) ∨
         (cfg.mode = SideMode.short ∧ st.shares > 0) then []
      else st.openExitOrderIds := by
  cases hm : cfg.mode with
  | long => by_cases hs : st.shares < 0 <;> simp [ensureNoFlip, hm, hs]
  | short => by_cases hs : st.shares > 0 <;> simp [ensureNoFlip, hm, hs]

theorem ensureNoFlip_oca (cfg : Config) (st : BotSt) :
    (ensureNoFlip cfg st).1.currentOcaGroup =
      if (cfg.mode = SideMode.long ∧ st.shares < 0) ∨
         (cfg.mode = SideMode.short ∧ st.shares > 0) then ""
      else st.currentOcaGroup := by
  cases hm : cfg.mode with
  | long => by_cases hs : st.shares < 0 <;> simp [ensureNoFlip, hm, hs]
  | short => by_cases hs : st.shares > 0 <;> simp [ensureNoFlip, hm, hs]

theorem ensureNoFlip_inPosition (cfg : Config) (st : BotSt) :
    (ensureNoFlip cfg st).1.inPosition =
      if (cfg.mode = SideMode.long ∧ st.shares < 0) ∨
         (cfg.mode = SideMode.short ∧ st.shares > 0) then false
      else st.inPosition := by
  cases hm : cfg.mode with
  | long => by_cases hs : st.shares < 0 <;> simp [ensureNoFlip, hm, hs]
  | short => by_cases hs : st.shares > 0 <;> simp [ensureNoFlip, hm, hs]

theorem ensureNoFlip_snd (cfg : Config) (st : BotSt) :
    (ensureNoFlip cfg st).2 =
      if (cfg.mode = SideMode.long ∧ st.shares < 0) ∨
         (cfg.mode = SideMode.short ∧ st.shares > 0) then st.openExitOrderIds
      else [] := by
  cases hm : cfg.mode with
  | long => by_cases hs : st.shares < 0 <;> simp [ensureNoFlip, hm, hs]
  | short => by_cases hs : st.shares > 0 <;> simp [ensureNoFlip, hm, hs]

theorem ensureNoFlip_tradeCounter (cfg : Config) (st : BotSt) :
    (ensureNoFlip cfg st).1.tradeCounter = st.tradeCounter := by
  simp only [ensureNoFlip]
  split_ifs <;> rfl

theorem ensureNoFlip_entryPriceEq (cfg : Config) (st : BotSt) :
    (ensureNoFlip cfg st).1.entryPrice = st.entryPrice := by
  simp only [ensureNoFlip]
  split_ifs <;> rfl

theorem recordFlat_txLog (cfg : Config) (st : BotSt) (pr price : ℚ)
    (r : Option Reason) :
    (recordFlat cfg st pr price r).1.txLog = st.txLog ++
      [{ symbol := cfg.symbol
         side := if cfg.mode = SideMode.long then Side.sell else Side.buy
         price := price
         shares := st.shares
         profit := pr
         newCapital := st.equity + pr
         tradeIndex := st.tradeCounter
         reason := r }] := rfl

theorem recordFlat_snd (cfg : Config) (st : BotSt) (pr price : ℚ)
    (r : Option Reason) :
    (recordFlat cfg st pr price r).2 = st.openExitOrderIds := rfl

/-- C2: terminal EXIT fill settlement — with a working exit order of
quantity q tracked for the reported id, a "Filled" status, q not exceeding
the pending exit quantity, and the position covering q in the configured
direction: realized P&L is q * (price − entry) long / q * (entry − price)
short and is added to equity in both outcomes; when the fill exactly
flattens the position the ledger is reset flat (pending exit quantity
cleared in the reset), the sibling exit orders are cancelled, the OCA tag
is cleared and exactly one closing Trade Record with that profit is
appended; when quantity remains, the pending exit quantity is decremented
by q, the signed quantity moves toward zero by q, and no record is
appended. -/
theorem c2_exit_fill_settlement (cfg : Config) (st : BotSt) (e : StatusEvent)
    (newOca : String) (meta : TrackedOrder)
    (hm : ordLookup st.orders e.orderId = some meta)
    (hrole : meta.role = Role.exit)
    (hst : e.status = "Filled")
    (hq : meta.qty ≤ st.pendingExitQty)
    (hlong : cfg.mode = SideMode.long → meta.qty ≤ st.shares)
    (hshort : cfg.mode = SideMode.short → st.shares ≤ -meta.qty) :
    (handleOrderStatus cfg st e newOca).1.equity = st.equity +
      (if cfg.mode = SideMode.long then meta.qty * (e.avgFillPrice - st.entryPrice)
       else meta.qty * (st.entryPrice - e.avgFillPrice)) ∧
    ((cfg.mode = SideMode.long ∧ st.shares = meta.qty) ∨
     (cfg.mode = SideMode.short ∧ st.shares = -meta.qty) →
      (handleOrderStatus cfg st e newOca).1.shares = 0 ∧
      (handleOrderStatus cfg st e newOca).1.inPosition = false ∧
      (handleOrderStatus cfg st e newOca).1.entryPrice = 0 ∧
      (handleOrderStatus cfg st e newOca).1.pendingExitQty = 0 ∧
      (handleOrderStatus cfg st e newOca).1.openExitOrderIds = [] ∧
      (handleOrderStatus cfg st e newOca).1.currentOcaGroup = "" ∧
      (handleOrderStatus cfg st e newOca).2 =
        st.openExitOrderIds.filter (fun i => i ≠ e.orderId) ∧
      (handleOrderStatus cfg st e newOca).1.txLog = st.txLog ++
        [{ symbol := cfg.symbol
           side := if cfg.mode = SideMode.long then Side.sell else Side.buy
           price := e.avgFillPrice
           shares := 0
           profit :=
             if cfg.mode = SideMode.long then
               meta.qty * (e.avgFillPrice - st.entryPrice)
             else meta.qty * (st.entryPrice - e.avgFillPrice)
           newCapital := st.equity +
             (if cfg.mode = SideMode.long then
               meta.qty * (e.avgFillPrice - st.entryPrice)
             else meta.qty * (st.entryPrice - e.avgFillPrice))
           tradeIndex := st.tradeCounter
           reason := some meta.reason }]) ∧
    ((cfg.mode = SideMode.long ∧ st.shares ≠ meta.qty) ∨
     (cfg.mode = SideMode.short ∧ st.shares ≠ -meta.qty) →
      (handleOrderStatus cfg st e newOca).1.shares =
        (if cfg.mode = SideMode.long then st.shares - meta.qty
         else st.shares + meta.qty) ∧
      (handleOrderStatus cfg st e newOca).1.pendingExitQty =
        st.pendingExitQty - meta.qty ∧
      (handleOrderStatus cfg st e newOca).1.txLog = st.txLog) := by
  have hC : ¬ (e.status = "Cancelled") := by rw [hst]; decide
  have hT : e.status = "Filled" ∨ e.remaining = 0 := Or.inl hst
  have hRe : ¬ (meta.role = Role.entry) := by rw [hrole]; decide
  have hFC : ¬ ((cfg.mode = SideMode.long ∧
        (if cfg.mode = SideMode.long then st.shares - meta.qty
         else st.shares + meta.qty) < 0) ∨
      (cfg.mode = SideMode.short ∧
        (if cfg.mode = SideMode.long then st.shares - meta.qty
         else st.shares + meta.qty) > 0)) := by
    rintro (⟨hm2, hlt⟩ | ⟨hm2, hgt⟩)
    · rw [if_pos hm2] at hlt
      have := hlong hm2
      linarith
    · have hne : ¬ cfg.mode = SideMode.long := by rw [hm2]; decide
      rw [if_neg hne] at hgt
      have := hshort hm2
      linarith
  have hpend : jsMax 0 (st.pendingExitQty - meta.qty)
      = st.pendingExitQty - meta.qty := by
    unfold jsMax
    rw [if_pos (by linarith)]
  unfold handleOrderStatus
  rw [hm]
  dsimp only
  cases hfil : e.filled <;> dsimp only <;>
    rw [if_neg hC, if_pos hT, if_neg hRe] <;> try dsimp only
  all_goals (
    rw [ensureNoFlip_shares]
    dsimp only
    rw [if_neg hFC]
    refine ⟨?_, ?_, ?_⟩
    · by_cases hz : (if cfg.mode = SideMode.long then st.shares - meta.qty
          else st.shares + meta.qty) = 0
      · rw [if_pos hz]
        dsimp only
        rw [recordFlat_equity, ensureNoFlip_equity]
      · rw [if_neg hz]
        dsimp only
        rw [ensureNoFlip_equity]
    · intro hclose
      have hz : (if cfg.mode = SideMode.long then st.shares - meta.qty
          else st.shares + meta.qty) = 0 := by
        rcases hclose with ⟨hm2, hsq⟩ | ⟨hm2, hsq⟩
        · rw [if_pos hm2, hsq]
          ring
        · have hne : ¬ cfg.mode = SideMode.long := by rw [hm2]; decide
          rw [if_neg hne, hsq]
          ring
      rw [if_pos hz]
      dsimp only
      refine ⟨rfl, rfl, rfl, rfl, rfl, rfl, ?_, ?_⟩
      · rw [ensureNoFlip_snd, recordFlat_snd, ensureNoFlip_openExit]
        try dsimp only
        rw [if_neg hFC, if_neg hFC]
        try dsimp only
        rw [List.nil_append]
      · rw [recordFlat_txLog, ensureNoFlip_txLog]
        rw [ensureNoFlip_shares, ensureNoFlip_equity, ensureNoFlip_tradeCounter]
        try dsimp only
        rw [if_neg hFC, hz]
    · intro hopen
      have hz : ¬ ((if cfg.mode = SideMode.long then st.shares - meta.qty
          else st.shares + meta.qty) = 0) := by
        rcases hopen with ⟨hm2, hsq⟩ | ⟨hm2, hsq⟩
        · rw [if_pos hm2]
          intro h0
          exact hsq (by linarith)
        · have hne : ¬ cfg.mode = SideMode.long := by rw [hm2]; decide
          rw [if_neg hne]
          intro h0
          exact hsq (by linarith)
      rw [if_neg hz]
      dsimp only
      refine ⟨rfl, ?_, ?_⟩
      · rw [ensureNoFlip_pendingEq]
        try dsimp only
        rw [if_neg hFC]
        try dsimp only
        exact hpend
      · exact ensureNoFlip_txLog cfg _)

/-- C2 witness: the 10-share exit order filled at 102 against the 10 @ 100
long position flattens it and realizes 20 into equity. -/
theorem c2_exit_fill_settlement_witness :
    (handleOrderStatus cfgL openLongSt fillEv7 "N").1.shares = 0 ∧
    (handleOrderStatus cfgL openLongSt fillEv7 "N").1.inPosition = false ∧
    (handleOrderStatus cfgL openLongSt fillEv7 "N").1.equity = 1020 := by
  have h := c2_exit_fill_settlement cfgL openLongSt fillEv7 "N"
      { side := Side.sell, role := Role.exit, reason := Reason.rule
        qty := 10, cumQty := 0, oca := some "A" }
      (by decide) (by decide) (by decide) (by decide)
      (fun _ => by decide) (fun hc => absurd hc (by decide))
  obtain ⟨he, hcl, -⟩ := h
  have hc := hcl (Or.inl ⟨rfl, by decide⟩)
  refine ⟨hc.1, hc.2.1, ?_⟩
  rw [he]
  norm_num [cfgL, openLongSt, fillEv7, initState]

end TradingBot
